import Mathlib

/-!
Verification of the CircuiTikZ-Designer-to-JSON converter against its
specification.  This file is a shallow embedding of the three Python
sources `tikz_tokens_2_json.py`, `gen_tikz_tokens.py` and `convert.py`.

Modelling conventions:
* Python floats are modelled as exact rationals (`ℚ`); `round(x, 3)` is
  modelled by round-half-to-even on the scaled rational.
* Python dicts are modelled as insertion-ordered association lists
  `List (String × JVal)`; assignment `d[k] = v` is `dictSet` (replace in
  place if the key exists, append otherwise).
* Python runtime exceptions (IndexError, TypeError, ...) are modelled by
  an explicit error type `RErr` and `Except RErr`.
* Each regular-expression search of the source is modelled by a
  hand-written scanner over `List Char`; the doc comment of every scanner
  names the regex it models.
-/

/-! ## Basic string utilities -/

/-- Characters treated as whitespace by Python `str.strip`. -/
def isPyWs (c : Char) : Bool :=
  c = ' ' || c = '\t' || c = '\n' || c = '\r' || c = '\x0b' || c = '\x0c'

/-- Python `str.strip()` on a character list. -/
def trimChars (s : List Char) : List Char :=
  ((s.dropWhile isPyWs).reverse.dropWhile isPyWs).reverse

/-- Python `str.strip()` on a string. -/
def trimStr (s : String) : String := ⟨trimChars s.data⟩

/-- Python `str.strip(cs)` with an explicit character set. -/
def trimCharSet (cs : List Char) (s : List Char) : List Char :=
  ((s.dropWhile (cs.contains ·)).reverse.dropWhile (cs.contains ·)).reverse

/-- Does `pat` occur as a substring of `s`?  Models `re.search` of a
literal pattern. -/
def hasSubList (pat : List Char) : List Char → Bool
  | [] => pat.isEmpty
  | s@(_ :: rest) => pat.isPrefixOf s || hasSubList pat rest

/-- `hasSub s pat`: does the literal `pat` occur in `s`? -/
def hasSub (s pat : String) : Bool := hasSubList pat.data s.data

/-- Number of positions of `s` at which `pat` starts.  For the patterns
used here (which cannot overlap themselves) this equals the count of
non-overlapping matches returned by `re.findall`. -/
def countSubList (pat : List Char) : List Char → Nat
  | [] => 0
  | s@(_ :: rest) => (if pat.isPrefixOf s then 1 else 0) + countSubList pat rest

/-- Index of the first occurrence of `pat` in `s`, if any. -/
def indexOfSub (pat : List Char) : List Char → Option Nat
  | [] => if pat.isEmpty then some 0 else none
  | s@(_ :: rest) =>
    if pat.isPrefixOf s then some 0
    else (indexOfSub pat rest).map (· + 1)

/-- Python `str.split(sep)` (single-character separator), accumulator form. -/
def splitOnCharAux (sep : Char) : List Char → List Char → List (List Char)
  | [], acc => [acc.reverse]
  | c :: rest, acc =>
    if c = sep then acc.reverse :: splitOnCharAux sep rest []
    else splitOnCharAux sep rest (c :: acc)

/-- Python `str.split(sep)` for a single-character separator. -/
def splitOnChar (sep : Char) (s : List Char) : List (List Char) :=
  splitOnCharAux sep s []

/-- Python `'\n'.split` used on the cleaned content. -/
def splitLines (s : List Char) : List (List Char) := splitOnChar '\n' s

/-- Count occurrences of a single character. -/
def countChar (c : Char) (s : List Char) : Nat := (s.filter (· = c)).length

/-- Python `s.startswith(pat)` (character-list model). -/
def strStarts (s pat : String) : Bool := pat.data.isPrefixOf s.data

/-- Python `s.endswith(pat)` (character-list model). -/
def strEnds (s pat : String) : Bool := pat.data.isSuffixOf s.data

/-- Python `' '.join(parts)`. -/
def joinWithSpace : List String → String
  | [] => ""
  | [p] => p
  | p :: rest => p ++ " " ++ joinWithSpace rest

/-! ## Numeric model -/

/-- `LATEX_TO_JSON_SCALE_X_FACTOR` from the source. -/
def LATEX_TO_JSON_SCALE_X_FACTOR : ℚ := 37.795286

/-- `LATEX_TO_JSON_SCALE_Y_FACTOR` from the source. -/
def LATEX_TO_JSON_SCALE_Y_FACTOR : ℚ := 37.795286

/-- `LATEX_TO_JSON_SCALE_SHAPE_FACTOR` from the source. -/
def LATEX_TO_JSON_SCALE_SHAPE_FACTOR : ℚ := 38.88379

/-- Round a rational to the nearest integer, ties to even (the rounding
used by Python `round`). -/
def roundHalfEven (q : ℚ) : Int :=
  let f := ⌊q⌋
  let r := q - f
  if r < 1 / 2 then f
  else if 1 / 2 < r then f + 1
  else if f % 2 = 0 then f else f + 1

/-- Python `round(q, 3)` on an exact rational value. -/
def round3 (q : ℚ) : ℚ := (roundHalfEven (q * 1000) : ℚ) / 1000

/-- Python `int(q)`: truncation toward zero. -/
def pyInt (q : ℚ) : Int := if 0 ≤ q then ⌊q⌋ else -⌊-q⌋

/-- `clean_numeric_value` from the source: round to 3 decimals and map
`-0.0` to `0.0` (the latter is the identity on rationals, kept to mirror
the source's branch). -/
def clean_numeric_value (value : ℚ) : ℚ :=
  let rounded := round3 value
  if rounded = 0 then 0 else rounded

/-- `convert_coordinate` from the source.  The callers always pass an
already-parsed numeric value, so the `float(value)` conversion with its
`0.0` fallback happens at the parsing stage of the model
(`get_coordinate_list`). -/
def convert_coordinate (value : ℚ) (axis : String) : ℚ :=
  let scaled : ℚ :=
    if axis = "x" then value * LATEX_TO_JSON_SCALE_X_FACTOR
    else if axis = "y" then -value * LATEX_TO_JSON_SCALE_Y_FACTOR
    else 0
  clean_numeric_value scaled

/-! ## Decimal numerals -/

def isDigitCh (c : Char) : Bool := '0' ≤ c && c ≤ '9'

def digitVal (c : Char) : Nat := c.toNat - 48

def natOfDigits (ds : List Char) : Nat :=
  ds.foldl (fun a c => a * 10 + digitVal c) 0

/-- Character-level decomposition of a decimal numeral: sign flag,
integer-part digits, fraction-part digits. -/
def decSplit (s : List Char) : Bool × List Char × List Char :=
  let t0 := trimChars s
  let (neg, t) :=
    match t0 with
    | '-' :: r => (true, r)
    | '+' :: r => (false, r)
    | _ => (false, t0)
  let d1 := t.takeWhile isDigitCh
  let rest := t.drop d1.length
  match rest with
  | '.' :: frac => (neg, d1, frac.takeWhile isDigitCh)
  | _ => (neg, d1, [])

/-- Value of a decimal numeral with optional sign, as Python `float()`
reads it.  The callers only apply this to text that already matched a
numeric regex. -/
def parseDec (s : List Char) : ℚ :=
  let parts := decSplit s
  let v : ℚ :=
    (natOfDigits parts.2.1 : ℚ) +
      (natOfDigits parts.2.2 : ℚ) / 10 ^ parts.2.2.length
  if parts.1 then -v else v

/-- Python `float(s)` on regex-validated numeric text. -/
def pyFloat (s : String) : ℚ := parseDec s.data

/-- Decimal rendering of a natural number (fuel-based so that it reduces
in the kernel). -/
def natStrAux : Nat → Nat → List Char
  | 0, _ => []
  | _, 0 => []
  | fuel + 1, n => natStrAux fuel (n / 10) ++ [Char.ofNat (48 + n % 10)]

def natStr (n : Nat) : String := if n = 0 then "0" else ⟨natStrAux (n + 1) n⟩

/-- Decimal rendering of an integer, as Python formats an `int`. -/
def intStr (i : Int) : String :=
  if i < 0 then "-" ++ natStr i.natAbs else natStr i.toNat

/-! ## JSON values and dict operations -/

/-- A JSON-like value: the converter's output universe.  `i` is a Python
`int`, `n` a Python `float` (modelled exactly), `obj` an
insertion-ordered dict. -/
inductive JVal where
  | null
  | s (v : String)
  | i (v : Int)
  | n (v : ℚ)
  | arr (vs : List JVal)
  | obj (fields : List (String × JVal))

/-- Python dict assignment `d[k] = v`: replace the value in place if the
key is present, append otherwise. -/
def dictSet (d : List (String × JVal)) (k : String) (v : JVal) :
    List (String × JVal) :=
  if d.any (·.1 = k) then d.map (fun kv => if kv.1 = k then (k, v) else kv)
  else d ++ [(k, v)]

/-- Python `d.get(k)`. -/
def dictGet (d : List (String × JVal)) (k : String) : Option JVal :=
  (d.find? (·.1 = k)).map (·.2)

/-- Python runtime exceptions that the converter can raise. -/
inductive RErr where
  | indexError
  | typeError
  | attributeError
  | nameError
deriving DecidableEq

/-- Turn an optional value into `Except`, raising `e` on `none` (models a
failing Python lookup/attribute access). -/
def opt {α : Type} (e : RErr) : Option α → Except RErr α
  | some a => .ok a
  | none => .error e

/-! ## Regex-capture scanners -/

/-- Model of `re.search(marker ++ capture)` where the capture is a
nonempty run of characters satisfying `keep` (regex class `[...]+`).
Scans left to right; at each occurrence of the literal `marker` it tries
to capture and moves on when the run is empty, as the regex engine
does. -/
def scanRunCapture (marker : List Char) (keep : Char → Bool) :
    List Char → Option String
  | [] => none
  | s@(_ :: rest) =>
    if marker.isPrefixOf s then
      let tail := s.drop marker.length
      let run := tail.takeWhile keep
      if run ≠ [] then some ⟨run⟩ else scanRunCapture marker keep rest
    else scanRunCapture marker keep rest

/-- Model of `re.search(marker ++ ([^c]*) ++ c)`: a possibly-empty
capture delimited by the closing character `close`. -/
def scanDelimCapture (marker : List Char) (close : Char) :
    List Char → Option String
  | [] => none
  | s@(_ :: rest) =>
    if marker.isPrefixOf s then
      let tail := s.drop marker.length
      let run := tail.takeWhile (· ≠ close)
      if (tail.drop run.length).head? = some close then some ⟨run⟩
      else scanDelimCapture marker close rest
    else scanDelimCapture marker close rest

/-- Match of the regex `\d*\.?\d+` at the start of `t`, returning the
matched text.  The greedy/backtracking behaviour of the regex collapses
to this deterministic scan because a digit run can never hide the
following context. -/
def matchUnsignedNum (t : List Char) : Option (List Char) :=
  let d1 := t.takeWhile isDigitCh
  let r1 := t.drop d1.length
  match r1 with
  | '.' :: r2 =>
    let d2 := r2.takeWhile isDigitCh
    if d2 ≠ [] then some (d1 ++ '.' :: d2)
    else if d1 ≠ [] then some d1 else none
  | _ => if d1 ≠ [] then some d1 else none

/-- Match of `[signs]?\d*\.?\d+` at the start of `t`. -/
def matchSignedNum (signs : List Char) (t : List Char) : Option (List Char) :=
  match t with
  | c :: r =>
    if signs.contains c then (matchUnsignedNum r).map (c :: ·)
    else matchUnsignedNum t
  | [] => none

/-- Model of `re.search(marker ++ ([signs]?\d*\.?\d+))`. -/
def scanNumCapture (marker : List Char) (signs : List Char) :
    List Char → Option String
  | [] => none
  | s@(_ :: rest) =>
    if marker.isPrefixOf s then
      match matchSignedNum signs (s.drop marker.length) with
      | some numTxt => some ⟨numTxt⟩
      | none => scanNumCapture marker signs rest
    else scanNumCapture marker signs rest

/-- Model of the capture `line width=([\d.]+pt)`.  No backtracking of the
greedy class is possible because `p` is not in the class. -/
def lineWidthCapAux : List Char → Option String
  | [] => none
  | s@(_ :: rest) =>
    if ("line width=".data).isPrefixOf s then
      let tail := s.drop 11
      let run := tail.takeWhile (fun c => isDigitCh c || c = '.')
      if run ≠ [] && ("pt".data).isPrefixOf (tail.drop run.length) then
        some ⟨run ++ "pt".data⟩
      else lineWidthCapAux rest
    else lineWidthCapAux rest

def lineWidthCap (s : String) : Option String := lineWidthCapAux s.data

/-- Model of `rgb,255:red,(\d+);green,(\d+);blue,(\d+)`: the three digit
captures, kept as text because the source re-emits them verbatim. -/
def rgbCapAux : List Char → Option (String × String × String)
  | [] => none
  | s@(_ :: rest) =>
    if ("rgb,255:red,".data).isPrefixOf s then
      let t := s.drop 12
      let r := t.takeWhile isDigitCh
      let t2 := t.drop r.length
      if r ≠ [] && (";green,".data).isPrefixOf t2 then
        let t3 := t2.drop 7
        let g := t3.takeWhile isDigitCh
        let t4 := t3.drop g.length
        if g ≠ [] && (";blue,".data).isPrefixOf t4 then
          let t5 := t4.drop 6
          let b := t5.takeWhile isDigitCh
          if b ≠ [] then some (⟨r⟩, ⟨g⟩, ⟨b⟩) else rgbCapAux rest
        else rgbCapAux rest
      else rgbCapAux rest
    else rgbCapAux rest

def rgbCap (s : String) : Option (String × String × String) := rgbCapAux s.data

/-- The CSS color string `f'rgb({r},{g},{b})'` built by the source. -/
def rgbString (r g b : String) : String :=
  "rgb(" ++ r ++ "," ++ g ++ "," ++ b ++ ")"

/-! ## Alias tables -/

/-- `ARROW_ALIASES` from the source. -/
def ARROW_ALIASES : List (String × String) :=
  [("stealth", "stealth"), ("stealth reversed", "stealthR"),
   ("latex", "latex"), ("latex reversed", "latexR"),
   ("to", "to"), ("to reversed", "toR"), ("|", "line")]

/-- `LINE_ALIASES` from the source: canonical dash patterns, normalized to
line width 1, mapped to named styles. -/
def LINE_ALIASES : List (String × String) :=
  [("on 1pt off 4pt", "dotted"),
   ("on 1pt off 2pt", "denselydotted"),
   ("on 1pt off 8pt", "looselydotted"),
   ("on 4pt off 4pt", "dashed"),
   ("on 4pt off 2pt", "denselydashed"),
   ("on 4pt off 8pt", "looselydashed"),
   ("on 4pt off 2pt on 1pt off 2pt", "dashdot"),
   ("on 4pt off 1pt on 1pt off 1pt", "denselydashdot"),
   ("on 4pt off 4pt on 1pt off 4pt", "looselydashdot"),
   ("on 4pt off 2pt on 1pt off 2pt on 1pt off 2pt", "dashdotdot"),
   ("on 4pt off 1pt on 1pt off 1pt on 1pt off 1pt", "denselydashdotdot"),
   ("on 4pt off 4pt on 1pt off 4pt on 1pt off 4pt", "looselydashdotdot")]

/-! ## Dash patterns -/

/-- Representation of a dash-pattern text for `scale_dash_pattern`: the
substitution regex `(\d+\.?\d*)(pt)` partitions the text into literal
chunks (containing no number-plus-`pt` match) and number chunks (a
matched numeral, whose following `pt` unit is implicit in the chunk). -/
inductive DashChunk where
  | lit (v : String)
  | num (q : ℚ)
deriving DecidableEq

/-- Multiply every on/off length of a dash pattern by a factor (the
spec's "scaling every length in a pattern"). -/
def scaleDashLengths (factor : ℚ) (chunks : List DashChunk) : List DashChunk :=
  chunks.map fun c => match c with
    | .lit v => .lit v
    | .num q => .num (q * factor)

/-- `scale_dash_pattern` from the source: divide every matched length by
the stroke width and re-render it as `int(...)` followed by `pt`
(`re.sub` with `f"{int(number / scale_factor)}{unit}"`). -/
def scale_dash_pattern (dash_pattern : List DashChunk) (scale_factor : ℚ) :
    String :=
  String.join (dash_pattern.map fun c => match c with
    | .lit v => v
    | .num q => intStr (pyInt (q / scale_factor)) ++ "pt")

/-- Match of `(\d+\.?\d*)(pt)` at the start of `t`: a numeral with a
mandatory leading digit followed by the literal `pt`. -/
def matchDashNum (t : List Char) : Option (List Char × List Char) :=
  let d1 := t.takeWhile isDigitCh
  if d1 = [] then none
  else
    let r1 := t.drop d1.length
    let (numTxt, r2) :=
      match r1 with
      | '.' :: r2 =>
        let d2 := r2.takeWhile isDigitCh
        (d1 ++ '.' :: d2, r2.drop d2.length)
      | _ => (d1, r1)
    if ("pt".data).isPrefixOf r2 then some (numTxt, r2.drop 2) else none

/-- Parse a dash-pattern text into chunks, scanning left to right as
`re.sub` does (fuel-based recursion over the character list). -/
def parseDashChunksAux : Nat → List Char → List Char → List DashChunk
  | 0, acc, _ => if acc = [] then [] else [.lit ⟨acc.reverse⟩]
  | _, acc, [] => if acc = [] then [] else [.lit ⟨acc.reverse⟩]
  | fuel + 1, acc, s@(c :: rest) =>
    match matchDashNum s with
    | some (numTxt, r) =>
      (if acc = [] then [] else [DashChunk.lit ⟨acc.reverse⟩]) ++
        DashChunk.num (parseDec numTxt) :: parseDashChunksAux fuel [] r
    | none => parseDashChunksAux fuel (c :: acc) rest

def parseDashChunks (s : String) : List DashChunk :=
  parseDashChunksAux (s.data.length + 1) [] s.data

/-! ## Stroke (draw) options -/

/-- Capture of `draw opacity=([^,]+)`. -/
def drawOpacityCap (t : String) : Option String :=
  scanRunCapture ("draw opacity=".data) (· ≠ ',') t.data

/-- Capture of `dash pattern=\{([^}]*)\}`. -/
def dashPatternCap (t : String) : Option String :=
  scanDelimCapture ("dash pattern=\x7b".data) '}' t.data

/-- Capture of `draw=\{([^}]*)\}`. -/
def drawColorCap (t : String) : Option String :=
  scanDelimCapture ("draw=\x7b".data) '}' t.data

/-- The body of the draw-marker branch shared between
`parse_draw_options` and `build_new_wire_component` (the source comments
that the two blocks are kept textually identical "so a function can be
used").  Each key is assigned at most once, so the insertion-ordered
dict is the ordered list of the present entries. -/
def drawStroke (token : String) : List (String × JVal) :=
  let width_for_style : ℚ :=
    match lineWidthCap token with
    | some w => pyFloat ⟨w.data.take (w.data.length - 2)⟩   -- `.replace('pt','')` on a capture that ends in `pt`
    | none => 1
  (match lineWidthCap token with
   | some w => [("width", JVal.s w)]
   | none => []) ++
  (match drawOpacityCap token with
   | some o => [("opacity", JVal.s o)]
   | none => []) ++
  (match dashPatternCap token with
   | some d =>
     let key := scale_dash_pattern (parseDashChunks d) width_for_style
     (match LINE_ALIASES.lookup key with
      | some style => [("style", JVal.s style)]
      | none => [])   -- diagnostic printed, solid-line fallback
   | none => []) ++
  (match drawColorCap token with
   | some c =>
     (match rgbCap c with
      | some (r, g, b) => [("color", JVal.s (rgbString r g b))]
      | none => [])
   | none => [])

/-- `parse_draw_options` from the source.  Absence of a `draw` marker
yields exactly the sentinel `{"opacity": 0}` (a Python `int` zero). -/
def parse_draw_options (token : String) : List (String × JVal) :=
  if hasSub token "draw" then drawStroke token
  else [("opacity", .i 0)]

/-! ## Fill options -/

/-- Capture of `fill opacity=([^,]+)`. -/
def fillOpacityCap (t : String) : Option String :=
  scanRunCapture ("fill opacity=".data) (· ≠ ',') t.data

/-- Capture of `fill=\{([^}]*)\}`. -/
def fillColorCap (t : String) : Option String :=
  scanDelimCapture ("fill=\x7b".data) '}' t.data

/-- `parse_fill_options` from the source.  Note that the source
initializes `fill = {}` unconditionally after the marker search, so the
function always returns a dict (empty when no `fill` marker occurs) and
never `None`. -/
def parse_fill_options (token : String) : List (String × JVal) :=
  if hasSub token "fill" then
    let fill : List (String × JVal) := []
    let fill :=
      match fillOpacityCap token with
      | some o => dictSet fill "opacity" (.s o)
      | none => fill
    match fillColorCap token with
    | some c =>
      match rgbCap c with
      | some (r, g, b) => dictSet fill "color" (.s (rgbString r g b))
      | none => fill
    | none => fill
  else []

/-! ## Rotation and scale inference -/

/-- Capture of `xscale=(-?\d*\.?\d+)`. -/
def xscaleCap (t : String) : Option String :=
  scanNumCapture ("xscale=".data) ['-'] t.data

/-- Capture of `yscale=(-?\d*\.?\d+)`. -/
def yscaleCap (t : String) : Option String :=
  scanNumCapture ("yscale=".data) ['-'] t.data

/-- Capture of `rotate=(-?\d*\.?\d+)`. -/
def rotateCap (t : String) : Option String :=
  scanNumCapture ("rotate=".data) ['-'] t.data

/-- `parse_rotation` from the source, as an exact case split of its
`if`/`elif` chain over the three presence flags.  The chain's branches
are, in order: all three present; only xscale; only yscale; any
remaining case with a rotation (`elif m_rot`, reached for rotation
alone, xscale+rotation and yscale+rotation); xscale and yscale without
rotation; and the fall-through (nothing present). -/
def parse_rotation (token : String) :
    Option String × Option (List (String × JVal)) :=
  match xscaleCap token, yscaleCap token, rotateCap token with
  | some xs, some ys, some rs =>
    (some rs, some [("x", .s xs), ("y", .s ys)])
  | some xs, none, none =>
    (some "-180", some [("x", .n (-(pyFloat xs))), ("y", .n (-(pyFloat xs)))])
  | none, some ys, none =>
    (none, some [("x", .n (-(pyFloat ys))), ("y", .s ys)])
  | some _, none, some rs => (some rs, none)
  | none, some _, some rs => (some rs, none)
  | none, none, some rs => (some rs, none)
  | some xs, some ys, none =>
    (none, some [("x", .s xs), ("y", .s ys)])
  | none, none, none => (none, none)

/-! ## Shape and size -/

/-- Capture of `shape=([^,\]]+)`. -/
def shapeCap (t : String) : Option String :=
  scanRunCapture ("shape=".data) (fun c => c ≠ ',' && c ≠ ']') t.data

/-- Capture of `minimum width=([-+]?\d*\.?\d+)`. -/
def minWidthCap (t : String) : Option String :=
  scanNumCapture ("minimum width=".data) ['-', '+'] t.data

/-- Capture of `minimum height=([-+]?\d*\.?\d+)`. -/
def minHeightCap (t : String) : Option String :=
  scanNumCapture ("minimum height=".data) ['-', '+'] t.data

/-- `parse_shape_size` from the source.  When the shape regex does not
match, the local variable `shape` is unbound when the result dict is
built, which raises in Python; this is the `nameError` case. -/
def parse_shape_size (token : String) (location : JVal) :
    Except RErr (List (String × JVal)) := do
  let shape ←
    match shapeCap token with
    | some sh => pure (if trimStr sh = "rectangle" then "rect" else "ellipse")
    | none => Except.error RErr.nameError
  let result : List (String × JVal) :=
    [("type", .s shape), ("position", location)]
  match minWidthCap token with
  | none => pure result
  | some wtxt =>
    let width := max 0 (round3 (pyFloat wtxt * LATEX_TO_JSON_SCALE_SHAPE_FACTOR))
    match minHeightCap token with
    | some htxt =>
      let height := round3 (pyFloat htxt * LATEX_TO_JSON_SCALE_SHAPE_FACTOR)
      pure (dictSet result "size" (.obj [("x", .n width), ("y", .n height)]))
    | none =>
      pure (dictSet result "size" (.obj [("x", .n width), ("y", .n width)]))

/-! ## Math-mode-aware label splitting -/

/-- Backtracking model of the tail of the math regex `\$(?:\\.|[^$])*\$`
after its opening dollar: returns the consumed span content and the rest
after the closing dollar.  The star prefers the escape alternative
`\\.` and falls back to `[^$]` (which also matches a lone backslash), as
the greedy backtracking engine does. -/
def starMatchAux : Nat → List Char → Option (List Char × List Char)
  | 0, _ => none
  | _ + 1, [] => none
  | fuel + 1, c :: rest =>
    if c = '$' then some ([], rest)
    else if c = '\\' then
      match rest with
      | [] => none
      | d :: rest2 =>
        match starMatchAux fuel rest2 with
        | some (sp, r) => some (c :: d :: sp, r)
        | none =>
          match starMatchAux fuel rest with
          | some (sp, r) => some (c :: sp, r)
          | none => none
    else
      match starMatchAux fuel rest with
      | some (sp, r) => some (c :: sp, r)
      | none => none

/-- `starMatch` with enough fuel for its input. -/
def starMatch (s : List Char) : Option (List Char × List Char) :=
  starMatchAux (s.length + 1) s

/-- Leftmost match of the math-span regex inside a text: returns the
text before the match, the matched `$...$` span, and the rest. -/
def findMath : List Char → Option (List Char × List Char × List Char)
  | [] => none
  | c :: rest =>
    if c = '$' then
      match starMatch rest with
      | some (content, r) => some ([], '$' :: (content ++ ['$']), r)
      | none =>
        match findMath rest with
        | some (p, sp, r) => some (c :: p, sp, r)
        | none => none
    else
      match findMath rest with
      | some (p, sp, r) => some (c :: p, sp, r)
      | none => none

/-- `re.split` with the capturing math pattern, empty pieces filtered
out (`[p for p in re.split(...) if p]`); fuel-based recursion. -/
def rawPiecesAux : Nat → List Char → List (List Char)
  | 0, _ => []
  | fuel + 1, s =>
    match findMath s with
    | none => if s = [] then [] else [s]
    | some (pre, span, rest) =>
      (if pre = [] then [] else [pre]) ++ span :: rawPiecesAux fuel rest

/-- `parse_label_mixed_latex` from the source: split on `$...$` spans,
drop empty pieces, and rewrite any piece that strips to the line-break
command `\\` into a line feed. -/
def parse_label_mixed_latex (text : String) : List String :=
  (rawPiecesAux (text.data.length + 1) text.data).map fun p =>
    if trimChars p = ['\\', '\\'] then "\n" else ⟨p⟩

/-! ## Option splitting and label extraction -/

/-- The character loop of `split_options`: state is (escape, in-dollar,
brace depth, reversed current part); fuel-based so that it reduces in
the kernel. -/
def splitOptionsLoop :
    Nat → List Char → Bool → Bool → Int → List Char → List String
  | 0, _, _, _, _, current =>
    if current = [] then [] else [trimStr ⟨current.reverse⟩]
  | _ + 1, [], _, _, _, current =>
    if current = [] then [] else [trimStr ⟨current.reverse⟩]
  | fuel + 1, ch :: rest, escape, in_dollar, depth, current =>
    if escape then splitOptionsLoop fuel rest false in_dollar depth (ch :: current)
    else if ch = '\\' then splitOptionsLoop fuel rest true in_dollar depth (ch :: current)
    else if ch = '$' then splitOptionsLoop fuel rest false (!in_dollar) depth (ch :: current)
    else
      let depth :=
        if !in_dollar && ch = '{' then depth + 1
        else if !in_dollar && ch = '}' then depth - 1
        else depth
      if ch = ',' && depth = 0 && !in_dollar then
        trimStr ⟨current.reverse⟩ :: splitOptionsLoop fuel rest false in_dollar depth []
      else splitOptionsLoop fuel rest false in_dollar depth (ch :: current)

/-- `split_options` from the source: remove one outer bracket pair if
present, then split on top-level commas (outside braces and math mode),
stripping each part. -/
def split_options (s : String) : List String :=
  let s' : List Char :=
    if strStarts s "[" && strEnds s "]" then (s.data.drop 1).dropLast
    else s.data
  splitOptionsLoop (s'.length + 1) s' false false 0 []

/-- `extract_label` from the source.  The character loop of the source
tracks escapes, math mode and brace depth but appends every character
unchanged, so its net effect on the body is the identity; the model
keeps the observable strip and outer-dollar removal. -/
def extract_label (option : String) : Option Bool × Option String :=
  let pref : Option (Bool × List Char) :=
    if strStarts option "l_=" then some (true, option.data.drop 3)
    else if strStarts option "l=" then some (false, option.data.drop 2)
    else none
  match pref with
  | none => (none, none)
  | some (isl, s0) =>
    let s := trimChars s0
    if s.head? = some '{' && s.getLast? = some '}' then
      let body := (s.drop 1).dropLast
      let out := trimChars body
      let out :=
        if out.head? = some '$' && out.getLast? = some '$' && out.length ≥ 2 then
          let inner := (out.drop 1).dropLast
          if countChar '$' inner % 2 = 0 then inner else out
        else out
      (some isl, some ⟨out⟩)
    else (some isl, none)

/-- `parse_to_mirror_invert` from the source. -/
def parse_to_mirror_invert (parts : List String)
    (result : List (String × JVal)) : List (String × JVal) :=
  if parts.contains "mirror" then
    if parts.contains "invert" then
      dictSet result "scale" (.obj [("x", .i (-1)), ("y", .i (-1))])
    else dictSet result "scale" (.obj [("x", .i (-1)), ("y", .i 1)])
  else if parts.contains "invert" then
    dictSet result "scale" (.obj [("x", .i 1), ("y", .i (-1))])
  else result

/-! ## Coordinate lists -/

/-- A Python token slot: a string or `None`. -/
abbrev Tok := Option String

/-- Test of `re.match(r'^\(.*\)$', t)` (`.` cannot cross a newline). -/
def isParenTok (s : List Char) : Bool :=
  s.head? = some '(' && s.getLast? = some ')' && s.length ≥ 2 &&
    !s.contains '\n'

/-- Test of `re.match` with the absolute-coordinate pattern
`\(\s*-?\d*\.?\d+\s*,\s*-?\d*\.?\d+\s*\)`. -/
def numCoordMatch (s : List Char) : Bool :=
  match s with
  | '(' :: t =>
    let t := t.dropWhile isPyWs
    (match matchSignedNum ['-'] t with
     | some n1 =>
       let t1 := (t.drop n1.length).dropWhile isPyWs
       (match t1 with
        | ',' :: t2 =>
          let t2 := t2.dropWhile isPyWs
          (match matchSignedNum ['-'] t2 with
           | some n2 =>
             ((t2.drop n2.length).dropWhile isPyWs).head? = some ')'
           | none => false)
        | _ => false)
     | none => false)
  | _ => false

/-- Character-level part of `get_coordinate_list`: keep the
parenthesized tokens, keep only those matching the absolute numeric
form, and split each into the textual x and y parts
(`strip("()").split(",")`). -/
def coordStrings (tokens : List Tok) : List (List Char × List Char) :=
  let coordinates := tokens.filterMap fun t =>
    match t with
    | some str => if isParenTok str.data then some str else none
    | none => none
  (coordinates.filter fun c => numCoordMatch c.data).map fun c =>
    let inner := trimCharSet ['(', ')'] c.data
    let parts := splitOnChar ',' inner
    (parts.headD [], (parts.drop 1).headD [])

/-- `get_coordinate_list` from the source: each textual coordinate pair
is parsed with `float`, transformed, and cleaned (the transform already
cleans once; the list builder cleans a second time via
`clean_coordinates`). -/
def get_coordinate_list (tokens : List Tok) : List (ℚ × ℚ) :=
  (coordStrings tokens).map fun p =>
    (clean_numeric_value (convert_coordinate (parseDec p.1) "x"),
     clean_numeric_value (convert_coordinate (parseDec p.2) "y"))

/-- The JSON form of a processed coordinate. -/
def pointObj (p : ℚ × ℚ) : JVal := .obj [("x", .n p.1), ("y", .n p.2)]

/-! ## Wire components -/

def isAlphaCh (c : Char) : Bool :=
  ('a' ≤ c && c ≤ 'z') || ('A' ≤ c && c ≤ 'Z')

/-- Capture of `,\s*([a-zA-Z]+)-([^],]*)`: arrow names after a comma. -/
def arrowPairCapAux : List Char → Option (String × String)
  | [] => none
  | c :: rest =>
    if c = ',' then
      let t := rest.dropWhile isPyWs
      let g1 := t.takeWhile isAlphaCh
      if g1 ≠ [] then
        match t.drop g1.length with
        | '-' :: t2 =>
          some (⟨g1⟩, ⟨t2.takeWhile (fun d => d ≠ ']' && d ≠ ',')⟩)
        | _ => arrowPairCapAux rest
      else arrowPairCapAux rest
    else arrowPairCapAux rest

/-- Capture of `\[([^-]*)-(.*)\]`: the first group runs to the first `-`
after the bracket, the greedy second group to the last `]`. -/
def onlyArrowsCapAux : List Char → Option (String × String)
  | [] => none
  | c :: rest =>
    if c = '[' then
      let g1 := rest.takeWhile (· ≠ '-')
      let res : Option (String × String) :=
        match rest.drop g1.length with
        | '-' :: t2 =>
          (match (t2.reverse).dropWhile (· ≠ ']') with
           | ']' :: revG2 => some (⟨g1⟩, (⟨revG2.reverse⟩ : String))
           | _ => none)
        | _ => none
      match res with
      | some r => some r
      | none => onlyArrowsCapAux rest
    else onlyArrowsCapAux rest

/-- Attach a start/end arrow pair to the result when the captured names
are nonempty and known (`if m.group(n): if ... in ARROW_ALIASES`);
unknown names only print a diagnostic. -/
def applyArrowPair (g1 g2 : String) (result : List (String × JVal)) :
    List (String × JVal) :=
  let result :=
    if g1 ≠ "" then
      match ARROW_ALIASES.lookup g1 with
      | some a => dictSet result "startArrow" (.s a)
      | none => result
    else result
  if g2 ≠ "" then
    match ARROW_ALIASES.lookup g2 with
    | some a => dictSet result "endArrow" (.s a)
    | none => result
  else result

/-- `build_new_wire_component` from the source.  The `result = None`
assignment inside the all-points-equal check is dead (unconditionally
overwritten on the next line), so only the mandatory
`coord_dict_list[0]` access is modelled from that block. -/
def build_new_wire_component (coord_dict_list : List (ℚ × ℚ))
    (directions : List JVal) (options : String) :
    Except RErr (List (String × JVal)) := do
  let _first ← opt .indexError (coord_dict_list.get? 0)
  let result : List (String × JVal) :=
    [("type", .s "wire"),
     ("points", .arr (coord_dict_list.map pointObj)),
     ("directions", .arr directions)]
  match lineWidthCap options with
  | some w =>
    let result := dictSet result "stroke" (.obj [("width", .s w)])
    let result :=
      if hasSub options "draw" then
        dictSet result "stroke" (.obj (drawStroke options))
      else result
    match arrowPairCapAux options.data with
    | some (g1, g2) => pure (applyArrowPair g1 g2 result)
    | none => pure result
  | none =>
    match onlyArrowsCapAux options.data with
    | some (g1, g2) => pure (applyArrowPair g1 g2 result)
    | none => pure result

/-- Is every key of the stroke dict `"opacity"` (and at least one entry
present)?  Models `set(stroke.keys()) == {"opacity"}`. -/
def keysAllOpacity (st : List (String × JVal)) : Bool :=
  st.all (·.1 = "opacity") && st.any (·.1 = "opacity")

/-- Python truthiness of `stroke.get("opacity") == 0`: an `int` or
`float` zero compares equal to `0`, a string never does. -/
def opacityIsZero (st : List (String × JVal)) : Bool :=
  match dictGet st "opacity" with
  | some (.i k) => k = 0
  | some (.n q) => q = 0
  | _ => false

/-- The guard of the wire branch of `convert_tokens_to_json`:
`not set(stroke.keys()) == {"opacity"} and stroke.get("opacity") == 0`. -/
def wireStrokeGuard (st : List (String × JVal)) : Bool :=
  !keysAllOpacity st && opacityIsZero st

/-! ## Shape text -/

/-- The constant part of the `text` dict built by
`parse_text_for_shape`. -/
def textBase : List (String × JVal) :=
  [("align", .s "1"), ("justify", .s "0"), ("innerSep", .s "0"),
   ("showPlaceholderText", .s "true")]

/-- Capture of `\\textcolor\{([^}]+)\}(.*)` (`.` does not cross a
newline). -/
def textcolorCapAux : List Char → Option (String × String)
  | [] => none
  | s@(_ :: rest) =>
    if ("\\textcolor\x7b".data).isPrefixOf s then
      let t := s.drop 11
      let g1 := t.takeWhile (· ≠ '}')
      if g1 ≠ [] && (t.drop g1.length).head? = some '}' then
        some (⟨g1⟩, ⟨((t.drop g1.length).drop 1).takeWhile (· ≠ '\n')⟩)
      else textcolorCapAux rest
    else textcolorCapAux rest

/-- Match of `^\\([a-zA-Z]+)\s*(.*)`: a leading backslash command, then
the rest of the first line. -/
def fontCap (s : String) : Option (String × String) :=
  match s.data with
  | '\\' :: t =>
    let g1 := t.takeWhile isAlphaCh
    if g1 = [] then none
    else
      let t2 := (t.drop g1.length).dropWhile isPyWs
      some (⟨g1⟩, ⟨t2.takeWhile (· ≠ '\n')⟩)
  | _ => none

/-- Test of `re.match(r'^\{(.*)\}$', t)` (strip one outer brace pair;
`.` cannot cross a newline). -/
def outerBraces (t : String) : Option String :=
  if t.data.head? = some '{' && t.data.getLast? = some '}' &&
      t.data.length ≥ 2 && !(((t.data.drop 1).dropLast).contains '\n') then
    some ⟨(t.data.drop 1).dropLast⟩
  else none

/-- `parse_text_for_shape` from the source. -/
def parse_text_for_shape (token : String) :
    Except RErr (List (String × JVal)) := do
  let text := textBase
  let (text, token) :=
    match textcolorCapAux token.data with
    | some (g1, g2) =>
      let text :=
        match rgbCap g1 with
        | some (r, g, b) => dictSet text "color" (.s (rgbString r g b))
        | none => text
      let token :=
        match outerBraces g2 with
        | some inner => inner
        | none => g2
      (text, token)
    | none => (text, token)
  let labels := parse_label_mixed_latex token
  let l0 ← opt .indexError (labels.get? 0)
  let (text, text2) :=
    if strStarts l0 "\\" then
      match fontCap l0 with
      | some (font, rest0) =>
        (dictSet text "fontSize" (.s font),
         joinWithSpace (labels.set 0 rest0))
      | none => (text, joinWithSpace labels)
    else (text, joinWithSpace labels)
  pure (dictSet text "text" (.s text2))

/-! ## The element builder: convert_tokens_to_json -/

/-- Capture of `re.match(r"name=(.+)", s)` (`.` does not cross a
newline, `+` needs at least one character). -/
def nameCap (s : String) : Option String :=
  if ("name=".data).isPrefixOf s.data then
    let rest := (s.data.drop 5).takeWhile (· ≠ '\n')
    if rest ≠ [] then some ⟨rest⟩ else none
  else none

/-- Capture of `\$(.*)\$` with DOTALL: the text between the first and
the last dollar (needs at least two). -/
def dollarCap (s : String) : Option String :=
  match s.data.dropWhile (· ≠ '$') with
  | '$' :: t =>
    (match (t.reverse).dropWhile (· ≠ '$') with
     | '$' :: revMid => some ⟨revMid.reverse⟩
     | _ => none)
  | _ => none

/-- Capture of `anchor=([^\s,\]]+)`. -/
def anchorCap (t : String) : Option String :=
  scanRunCapture ("anchor=".data)
    (fun c => !(isPyWs c) && c ≠ ',' && c ≠ ']') t.data

/-- JSON value of a token slot (Python `None` becomes JSON null). -/
def jvalOfTok : Tok → JVal
  | some v => .s v
  | none => .null

/-- The `to` branch of `convert_tokens_to_json`. -/
def convertTo (tokens : List Tok) (coords : List (ℚ × ℚ)) :
    Except RErr JVal := do
  let _endPoint ← opt .indexError (coords.get? 1)
  let t2tok ← opt .indexError (tokens.get? 2)
  let t2 ← opt .typeError t2tok
  let base : List (String × JVal) :=
    [("type", .s "path"), ("points", .arr (coords.map pointObj))]
  if t2.data.contains '$' then      -- len(tokens[2].split('$')) > 1
    let parts := split_options t2
    let lastPart ← opt .indexError parts.getLast?
    let check := extract_label lastPart
    let lv : List (String × JVal) := []
    let lv :=
      match check.2 with
      | some v => dictSet lv "value" (.s v)
      | none => lv
    let lv := if check.1 = some true then dictSet lv "otherSide" (.s "true") else lv
    let lv := dictSet lv "distance" (.s "0.12cm")
    let result := dictSet base "label" (.obj lv)
    let result := parse_to_mirror_invert parts result
    let p0 ← opt .indexError (parts.get? 0)
    let result := dictSet result "id" (.s p0)
    let result :=
      match nameCap lastPart with
      | some nm => dictSet result "name" (.s nm)
      | none => result
    pure (.obj result)
  else if t2.data.contains ',' then -- options but no label
    let noBracket := trimCharSet ['[', ']'] t2.data
    let parts := (splitOnChar ',' noBracket).map (fun p => trimStr ⟨p⟩)
    let result := parse_to_mirror_invert parts base
    let p0 ← opt .indexError (parts.get? 0)
    pure (.obj (dictSet result "id" (.s p0)))
  else                              -- just the device id
    pure (.obj (dictSet base "id" (.s ⟨trimCharSet ['[', ']'] t2.data⟩)))

/-- The single-node branch of `convert_tokens_to_json`. -/
def convertNode (tokens : List Tok) (start : JVal) : Except RErr JVal := do
  let t1tok ← opt .indexError (tokens.get? 1)
  let t1 ← opt .typeError t1tok
  let result ← parse_shape_size t1 start
  let t2 ← opt .indexError (tokens.get? 2)
  let result :=
    match t2 with
    | some nm => if nm ≠ "" then dictSet result "name" (.s nm) else result
    | none => result
  let result := dictSet result "stroke" (.obj (parse_draw_options t1))
  let rs := parse_rotation t1
  let result :=
    match rs.1 with
    | some r => dictSet result "rotation" (.s r)
    | none => result
  let result :=
    match rs.2 with
    | some v => dictSet result "scale" (.obj v)
    | none => result
  pure (.obj result)

/-- The two-node branch of `convert_tokens_to_json`. -/
def convert2Node (tokens : List Tok) (start : JVal) : Except RErr JVal := do
  let t1tok ← opt .indexError (tokens.get? 1)
  let t1 ← opt .typeError t1tok
  let result ← parse_shape_size t1 start
  let t8 ← opt .indexError (tokens.get? 8)
  let result ←
    match t8 with
    | some txt => do
      let text ← parse_text_for_shape txt
      pure (dictSet result "text" (.obj text))
    | none => pure result
  let t2 ← opt .indexError (tokens.get? 2)
  let result :=
    if t2 ≠ some "" then dictSet result "name" (jvalOfTok t2) else result
  let result := dictSet result "stroke" (.obj (parse_draw_options t1))
  let result := dictSet result "fill" (.obj (parse_fill_options t1))
  let rs := parse_rotation t1
  let result :=
    match rs.1 with
    | some r => dictSet result "rotation" (.s r)
    | none => result
  let result :=
    match rs.2 with
    | some v => dictSet result "scale" (.obj v)
    | none => result
  pure (.obj result)

/-- The three-node branch of `convert_tokens_to_json`.  The label block
mutates the `text` dict through aliasing (`text["fontsize"] = ...`),
which raises a NameError when `tokens[12]` was `None` and no text dict
exists; the model threads the optional text dict through the label
analysis before assembling the result in the source's insertion
order. -/
def convert3Node (tokens : List Tok) (start : JVal) : Except RErr JVal := do
  let t1tok ← opt .indexError (tokens.get? 1)
  let t1 ← opt .typeError t1tok
  let shapeRes ← parse_shape_size t1 start
  let t12 ← opt .indexError (tokens.get? 12)
  let textOpt ←
    match t12 with
    | some txt => do
      let text ← parse_text_for_shape txt
      pure (some text)
    | none => pure none
  let t2 ← opt .indexError (tokens.get? 2)
  let t8 ← opt .indexError (tokens.get? 8)
  let state ←
    match t8 with
    | none => pure (textOpt, (none : Option (List (String × JVal))))
    | some lbl => do
      let labels := parse_label_mixed_latex lbl
      let l0 ← opt .indexError (labels.get? 0)
      let fontStep ←
        if strStarts l0 "\\" then
          match fontCap l0 with
          | some (font, _rest0) => do
            let text ← opt .nameError textOpt
            -- `text["fontsize"] = font_size`; `labels[0] = m.group(2)` is a
            -- dead store because the join then excludes `labels[0]`
            pure (some (dictSet text "fontsize" (.s font)),
                  joinWithSpace (labels.drop 1))
          | none => pure (textOpt, joinWithSpace labels)
        else pure (textOpt, joinWithSpace labels)
      let (textOpt, text2) := fontStep
      let la : List (String × JVal) :=
        [("value", .s ⟨trimCharSet ['$'] text2.data⟩)]
      let t5 ← opt .indexError (tokens.get? 5)
      let la :=
        match t5 with
        | some s5 =>
          (match anchorCap s5 with
           | some a => dictSet la "anchor" (.s a)
           | none => la)
        | none => la
      let t9 ← opt .indexError (tokens.get? 9)
      let la :=
        match t9 with
        | some _ =>
          dictSet (dictSet (dictSet la "position" (.s "northeast"))
            "relativeToComponent" (.s "true")) "distance" (.s "0.16cm")
        | none => la
      pure (textOpt, some la)
  let (textOpt, labelOpt) := state
  let result := shapeRes
  let result :=
    match textOpt with
    | some text => dictSet result "text" (.obj text)
    | none => result
  let result :=
    match t2 with
    | some nm => if nm ≠ "" then dictSet result "name" (.s nm) else result
    | none => result
  let result := dictSet result "stroke" (.obj (parse_draw_options t1))
  let result := dictSet result "fill" (.obj (parse_fill_options t1))
  let result :=
    match labelOpt with
    | some la => dictSet result "label" (.obj la)
    | none => result
  let rs := parse_rotation t1
  let result :=
    match rs.1 with
    | some r => dictSet result "rotation" (.s r)
    | none => result
  let result :=
    match rs.2 with
    | some v => dictSet result "scale" (.obj v)
    | none => result
  pure (.obj result)

/-- The device branch of `convert_tokens_to_json`. -/
def convertDevice (tokens : List Tok) (start : JVal) : Except RErr JVal := do
  let result : List (String × JVal) :=
    [("type", .s "node"), ("position", start)]
  let t1tok ← opt .indexError (tokens.get? 1)
  let t1 ← opt .attributeError t1tok    -- `None.split` raises
  let parts := (splitOnChar ',' t1.data).map (fun p => (⟨p⟩ : String))
  let step :=
    if parts.length = 1 then (result, t1, JVal.s "")
    else
      let id := parts.headD ""
      let options := JVal.arr ((parts.drop 1).map fun p => .s (trimStr p))
      let rs := parse_rotation t1
      let result :=
        match rs.1 with
        | some r => dictSet result "rotation" (.s r)
        | none => result
      let result :=
        match rs.2 with
        | some v => dictSet result "scale" (.obj v)
        | none => result
      (result, id, options)
  let (result, id, options) := step
  let result ←
    if tokens.length > 5 then do
      let t8 ← opt .indexError (tokens.get? 8)
      let t8s ← opt .typeError t8       -- `re.search` on `None` raises
      let label : List (String × JVal) :=
        [("anchor", .s "default"), ("position", .s "default"),
         ("distance", .s "0.12cm")]
      let label :=
        match dollarCap t8s with
        | some v => dictSet label "value" (.s v)
        | none => label
      pure (dictSet result "label" (.obj label))
    else pure result
  let result := dictSet result "options" options
  pure (.obj (dictSet result "id" (.s id)))

/-- The direction collection of the wire branch:
`[t for t in tokens if t in ['--', '-|', '|-']]`. -/
def wireDirections (tokens : List Tok) : List JVal :=
  tokens.filterMap fun t =>
    match t with
    | some v => if v = "--" || v = "-|" || v = "|-" then some (JVal.s v) else none
    | none => none

/-- The wire branch of `convert_tokens_to_json`: build the wire, then
attach the token-1 stroke only when the guard
`not set(stroke.keys()) == {"opacity"} and stroke.get("opacity") == 0`
holds. -/
def convertWire (tokens : List Tok) (coords : List (ℚ × ℚ)) :
    Except RErr JVal := do
  let directions := wireDirections tokens
  let lastTok ← opt .indexError tokens.getLast?
  let options ← opt .typeError lastTok
  let result ← build_new_wire_component coords directions options
  let t1tok ← opt .indexError (tokens.get? 1)
  let t1 ← opt .typeError t1tok
  let stroke := parse_draw_options t1
  if wireStrokeGuard stroke then
    pure (.obj (dictSet result "stroke" (.obj stroke)))
  else pure (.obj result)

/-- A token block as produced by the tokenizer (`None` when a
three-node line fails its first pattern). -/
abbrev Block := Option (List Tok)

/-- `convert_tokens_to_json` from the source: compute the coordinate
list and the mandatory first point, then dispatch on the kind tag.  An
unrecognized kind prints a diagnostic and returns `None` (JSON null). -/
def convert_tokens_to_json (block : Block) : Except RErr JVal := do
  match block with
  | none => .error .typeError   -- iterating `None` inside get_coordinate_list
  | some tokens => do
    let coords := get_coordinate_list tokens
    let startP ← opt .indexError (coords.get? 0)
    let start := pointObj startP
    match tokens.head? with
    | some (some "to") => convertTo tokens coords
    | some (some "node") => convertNode tokens start
    | some (some "2node") => convert2Node tokens start
    | some (some "3node") => convert3Node tokens start
    | some (some "device") => convertDevice tokens start
    | some (some "wire") => convertWire tokens coords
    | _ => pure .null

/-! ## gen_tikz_tokens: comment stripping -/

/-- The scanning loop of `remove_comments`: `prev` is the previous
character of the original text (the one-character negative lookbehind
`(?<!\\)`), the flag is set between an unescaped `%` and the next line
end (which is kept, since `.` does not cross it). -/
def rcAux : Bool → Option Char → List Char → List Char
  | _, _, [] => []
  | true, _, c :: rest =>
    if c = '\n' then '\n' :: rcAux false (some '\n') rest
    else rcAux true (some c) rest
  | false, prev, c :: rest =>
    if c = '%' && prev ≠ some '\\' then rcAux true (some c) rest
    else c :: rcAux false (some c) rest

/-- `remove_comments` from the source:
`re.sub(r'(?<!\\)%.*', '', content)`. -/
def remove_comments (content : List Char) : List Char := rcAux false none content

/-! ## gen_tikz_tokens: node-clause parsing -/

/-- Does `s` begin with `}` followed by whitespace and `;` (the
tempered-dot terminator `\}\s*;`)? -/
def startsCloseSemi (s : List Char) : Bool :=
  match s with
  | '}' :: t => (t.dropWhile isPyWs).head? = some ';'
  | _ => false

/-- Does `s` begin with `}` followed by whitespace and `node[` (the
tempered-dot terminator `\}\s*node\[`)? -/
def startsCloseNode (s : List Char) : Bool :=
  match s with
  | '}' :: t => ("node[".data).isPrefixOf (t.dropWhile isPyWs)
  | _ => false

/-- Greedy capture of `(?:(?!term).)*` with DOTALL: consume characters
while the rest does not begin with the terminator. -/
def captureUntil (term : List Char → Bool) :
    Nat → List Char → List Char × List Char
  | 0, s => ([], s)
  | _ + 1, [] => ([], [])
  | fuel + 1, s@(c :: rest) =>
    if term s then ([], s)
    else
      let p := captureUntil term fuel rest
      (c :: p.1, p.2)

/-- Parse of `pattern_one_node` (also `pattern_last_node`, which is
identical except for the leading backslash) at a position where the
opening `node[` has just been consumed:
`([^\]]+)\](?:\(([^)]*)\))?\s*at\s*(\([^)]*\))\s*\{((?:(?!\}\s*;).)*)\}\s*;`.
Returns (options, optional name, coordinate with parens, label). -/
def oneNodeAfter (s : List Char) : Option (String × Tok × String × String) :=
  let optsTxt := s.takeWhile (· ≠ ']')
  if optsTxt = [] then none
  else
    match s.drop optsTxt.length with
    | ']' :: t1 =>
      let np : Tok × List Char :=
        match t1 with
        | '(' :: u =>
          let nm := u.takeWhile (· ≠ ')')
          (match u.drop nm.length with
           | ')' :: v => (some ⟨nm⟩, v)
           | _ => (none, t1))
        | _ => (none, t1)
      let t3 := np.2.dropWhile isPyWs
      if ("at".data).isPrefixOf t3 then
        let t4 := (t3.drop 2).dropWhile isPyWs
        match t4 with
        | '(' :: u =>
          let coordBody := u.takeWhile (· ≠ ')')
          (match u.drop coordBody.length with
           | ')' :: v =>
             let t5 := v.dropWhile isPyWs
             (match t5 with
              | '{' :: w =>
                let cap := captureUntil startsCloseSemi (w.length + 1) w
                (match cap.2 with
                 | '}' :: y =>
                   if (y.dropWhile isPyWs).head? = some ';' then
                     some (⟨optsTxt⟩, np.1, ⟨'(' :: coordBody ++ [')']⟩, ⟨cap.1⟩)
                   else none
                 | _ => none)
              | _ => none)
           | _ => none)
        | _ => none
      else none
    | _ => none

/-- The lazy gap `(?:(?:(?!;\s*node\[).)*?)at` of the chained-clause
patterns: reach the earliest `at`, failing when a `;` directly followed
by whitespace and `node[` is reached first. -/
def gapToAt : List Char → Option (List Char)
  | [] => none
  | s@(c :: rest) =>
    if ("at".data).isPrefixOf s then some (s.drop 2)
    else if c = ';' && ("node[".data).isPrefixOf (rest.dropWhile isPyWs) then none
    else gapToAt rest

/-- Parse of `pattern_1st_node` (and `pattern_2nd_node`, identical but
for the leading backslash) after the opening `node[`: options, optional
name, lazy gap to `at`, coordinate, label terminated by `\}\s*node\[`,
and the rest `(\s*node\[.*)`. -/
def chainNodeAfter (s : List Char) :
    Option (String × Tok × String × String × List Char) :=
  let optsTxt := s.takeWhile (· ≠ ']')
  if optsTxt = [] then none
  else
    match s.drop optsTxt.length with
    | ']' :: t1 =>
      let np : Tok × List Char :=
        match t1 with
        | '(' :: u =>
          let nm := u.takeWhile (· ≠ ')')
          (match u.drop nm.length with
           | ')' :: v => (some ⟨nm⟩, v)
           | _ => (none, t1))
        | _ => (none, t1)
      match gapToAt np.2 with
      | none => none
      | some afterAt =>
        let t4 := afterAt.dropWhile isPyWs
        match t4 with
        | '(' :: u =>
          let coordBody := u.takeWhile (· ≠ ')')
          (match u.drop coordBody.length with
           | ')' :: v =>
             let t5 := v.dropWhile isPyWs
             (match t5 with
              | '{' :: w =>
                let cap := captureUntil startsCloseNode (w.length + 1) w
                (match cap.2 with
                 | '}' :: y =>
                   if ("node[".data).isPrefixOf (y.dropWhile isPyWs) then
                     some (⟨optsTxt⟩, np.1, ⟨'(' :: coordBody ++ [')']⟩, ⟨cap.1⟩, y)
                   else none
                 | _ => none)
              | _ => none)
           | _ => none)
        | _ => none
    | _ => none

/-- `re.search` of `pattern_1st_node`: scan for `\node[`. -/
def chainFirstSearch : List Char → Option (String × Tok × String × String × List Char)
  | [] => none
  | s@(_ :: rest) =>
    if ("\\node[".data).isPrefixOf s then
      match chainNodeAfter (s.drop 6) with
      | some r => some r
      | none => chainFirstSearch rest
    else chainFirstSearch rest

/-- `re.search` of `pattern_2nd_node`: scan for `node[`. -/
def chainSecondSearch : List Char → Option (String × Tok × String × String × List Char)
  | [] => none
  | s@(_ :: rest) =>
    if ("node[".data).isPrefixOf s then
      match chainNodeAfter (s.drop 5) with
      | some r => some r
      | none => chainSecondSearch rest
    else chainSecondSearch rest

/-- `re.search` of `pattern_last_node`: scan for `node[`. -/
def lastNodeSearch : List Char → Option (String × Tok × String × String)
  | [] => none
  | s@(_ :: rest) =>
    if ("node[".data).isPrefixOf s then
      match oneNodeAfter (s.drop 5) with
      | some r => some r
      | none => lastNodeSearch rest
    else lastNodeSearch rest

/-- `re.search` of `pattern_one_node`: scan for `\node[`. -/
def oneNodeSearch : List Char → Option (String × Tok × String × String)
  | [] => none
  | s@(_ :: rest) =>
    if ("\\node[".data).isPrefixOf s then
      match oneNodeAfter (s.drop 6) with
      | some r => some r
      | none => oneNodeSearch rest
    else oneNodeSearch rest

/-- Test of `re.search(r'\\node\s*\[\s*shape\s*=', line)`. -/
def hasShapeDecl : List Char → Bool
  | [] => false
  | s@(_ :: rest) =>
    (match s with
     | '\\' :: t =>
       if ("node".data).isPrefixOf t then
         match (t.drop 4).dropWhile isPyWs with
         | '[' :: v =>
           let w := v.dropWhile isPyWs
           if ("shape".data).isPrefixOf w then
             ((w.drop 5).dropWhile isPyWs).head? = some '='
           else false
         | _ => false
       else false
     | _ => false) || hasShapeDecl rest

/-- The string of an optional group with Python `(g or '').strip()`. -/
def stripOrEmpty : Tok → String
  | some v => trimStr v
  | none => ""

/-- The single-node branch of the tokenizer loop: classify by the shape
declaration, parse the clause, and emit nothing when the pattern
fails. -/
def oneNodeBlock (line : List Char) : Option (List Tok) :=
  let kind : String := if hasShapeDecl line then "node" else "device"
  match oneNodeSearch line with
  | some (nodeType, name, coord1, label1) =>
    some [some kind, some (trimStr nodeType), name, some (trimStr coord1),
      some (trimStr label1)]
  | none => none

/-- `two_node_parser` from the source (the name avoids this file's
naming constraints): a leading chained clause plus a final clause,
classified as `2node` or `device` by the shape declaration. -/
def twoNodeTokens (line : List Char) : List Tok :=
  let kind : String := if hasShapeDecl line then "2node" else "device"
  match chainFirstSearch line with
  | none => [some kind]
  | some (shape, name, coord1, label1, rest5) =>
    let base : List Tok :=
      [some kind, some (trimStr shape), name, some (trimStr coord1),
       some (trimStr label1)]
    match lastNodeSearch rest5 with
    | none => base
    | some (lAnchor, lLabel, lLoc, lText) =>
      base ++ [some ("[" ++ trimStr lAnchor ++ "]"), some (stripOrEmpty lLabel),
        some (trimStr lLoc), some (trimStr lText)]

/-- `three_node_parser` from the source (the name avoids this file's
naming constraints).  `m1.group(2).strip()` raises when the optional
name group is absent, and `m3 = re.search(..., m2.group(5), ...)` sits
outside the `if m2:` guard, so a failing second clause also raises. -/
def threeNodeTokens (line : List Char) : Except RErr Block := do
  match chainFirstSearch line with
  | none => pure none
  | some (shape, name, coord1, label1, rest5) =>
    let nameS ← opt .attributeError name
    let base : List Tok :=
      [some "3node", some ("[" ++ trimStr shape ++ "]"), some (trimStr nameS),
       some (trimStr coord1), some (trimStr label1)]
    match chainSecondSearch rest5 with
    | none => Except.error .attributeError
    | some (idAnchor, idLabel, idLoc, idText, rest5b) =>
      let base := base ++
        [some ("[" ++ trimStr idAnchor ++ "]"), some (stripOrEmpty idLabel),
         some (trimStr idLoc), some (trimStr idText)]
      match lastNodeSearch rest5b with
      | none => pure (some base)
      | some (lAnchor, lLabel, lLoc, lText) =>
        pure (some (base ++
          [some ("[" ++ trimStr lAnchor ++ "]"), some (stripOrEmpty lLabel),
           some (trimStr lLoc), some (trimStr lText)]))

/-! ## gen_tikz_tokens: draw and path statements -/

/-- `re.finditer(r'\\draw(\[.*?\])?(.*?);', content, DOTALL)` (and the
same for `\path`): the lazy option group runs to the first `]`, the
lazy content group to the first `;`; when the bracket or the terminator
is missing the engine moves on. -/
def findCmdStmtsAux (cmdWord : List Char) :
    Nat → List Char → List (String × String)
  | 0, _ => []
  | _ + 1, [] => []
  | fuel + 1, s@(_ :: rest) =>
    if cmdWord.isPrefixOf s then
      let afterCmd := s.drop cmdWord.length
      let ot : List Char × List Char :=
        match afterCmd with
        | '[' :: u =>
          let inner := u.takeWhile (· ≠ ']')
          (match u.drop inner.length with
           | ']' :: v => ('[' :: inner ++ [']'], v)
           | _ => ([], afterCmd))
        | _ => ([], afterCmd)
      let body := ot.2.takeWhile (· ≠ ';')
      match ot.2.drop body.length with
      | ';' :: v2 => ((⟨ot.1⟩ : String), (⟨body⟩ : String)) :: findCmdStmtsAux cmdWord fuel v2
      | _ => findCmdStmtsAux cmdWord fuel rest
    else findCmdStmtsAux cmdWord fuel rest

/-- Test of `re.search(r'\[.*?(<-|->|<->).*?\]', options)`: the option
group (which is bracket-delimited with no inner `]` when present)
carries a directional arrow. -/
def hasArrowMarker (options : String) : Bool :=
  match options.data with
  | '[' :: rest =>
    let inner := rest.takeWhile (· ≠ ']')
    if (rest.drop inner.length).head? = some ']' then
      hasSubList ("<-".data) inner || hasSubList ("->".data) inner
    else false
  | _ => false

/-- `pre_token`: the stripped statement content with the stripped
option text appended when present. -/
def preToken (options content : String) : List Char :=
  if options = "" then trimChars content.data
  else trimChars content.data ++ trimChars options.data

/-- Innermost bracket level of `wire_turn_pattern`: `\[[^\[\]]*\]`. -/
def brLevel3 (s : List Char) : Option (List Char × List Char) :=
  match s with
  | '[' :: u =>
    let inner := u.takeWhile (fun c => c ≠ '[' && c ≠ ']')
    (match u.drop inner.length with
     | ']' :: v => some ('[' :: inner ++ [']'], v)
     | _ => none)
  | _ => none

/-- Middle bracket level: the body of `\[(?:[^\[\]]|\[[^\[\]]*\])*\]`. -/
def brLevel2Body : Nat → List Char → Option (List Char × List Char)
  | 0, _ => none
  | _ + 1, [] => none
  | fuel + 1, s@(c :: rest) =>
    if c = ']' then some ([], rest)
    else if c = '[' then
      match brLevel3 s with
      | some (g, r) =>
        (match brLevel2Body fuel r with
         | some p => some (g ++ p.1, p.2)
         | none => none)
      | none => none
    else
      match brLevel2Body fuel rest with
      | some p => some (c :: p.1, p.2)
      | none => none

def brLevel2 (s : List Char) : Option (List Char × List Char) :=
  match s with
  | '[' :: u =>
    (match brLevel2Body (u.length + 1) u with
     | some p => some ('[' :: p.1 ++ [']'], p.2)
     | none => none)
  | _ => none

/-- Outermost bracket level of `wire_turn_pattern`. -/
def brLevel1Body : Nat → List Char → Option (List Char × List Char)
  | 0, _ => none
  | _ + 1, [] => none
  | fuel + 1, s@(c :: rest) =>
    if c = ']' then some ([], rest)
    else if c = '[' then
      match brLevel2 s with
      | some (g, r) =>
        (match brLevel1Body fuel r with
         | some p => some (g ++ p.1, p.2)
         | none => none)
      | none => none
    else
      match brLevel1Body fuel rest with
      | some p => some (c :: p.1, p.2)
      | none => none

/-- The bracket-group alternative of `wire_turn_pattern`:
`\[(?:[^\[\]]|\[(?:[^\[\]]|\[[^\[\]]*\])*\])*\]`. -/
def brGroup (s : List Char) : Option (List Char × List Char) :=
  match s with
  | '[' :: u =>
    (match brLevel1Body (u.length + 1) u with
     | some p => some ('[' :: p.1 ++ [']'], p.2)
     | none => none)
  | _ => none

/-- One match of `wire_turn_pattern` at the current position, trying
the alternatives in the pattern's order: parenthesized coordinate,
optionally `to`/`node`-prefixed bracket group, then the three turn
operators. -/
def wireTokAt (s : List Char) : Option (List Char × List Char) :=
  let paren : Option (List Char × List Char) :=
    match s with
    | '(' :: u =>
      let inner := u.takeWhile (fun c => c ≠ '(' && c ≠ ')')
      (match u.drop inner.length with
       | ')' :: v => some ('(' :: inner ++ [')'], v)
       | _ => none)
    | _ => none
  match paren with
  | some r => some r
  | none =>
    let bracket : Option (List Char × List Char) :=
      if ("to[".data).isPrefixOf s then
        (match brGroup (s.drop 2) with
         | some (g, r) => some ('t' :: 'o' :: g, r)
         | none => none)
      else if ("node[".data).isPrefixOf s then
        (match brGroup (s.drop 4) with
         | some (g, r) => some ('n' :: 'o' :: 'd' :: 'e' :: g, r)
         | none => none)
      else brGroup s
    match bracket with
    | some r => some r
    | none =>
      match s with
      | '-' :: '-' :: r => some (['-', '-'], r)
      | '-' :: '|' :: r => some (['-', '|'], r)
      | '|' :: '-' :: r => some (['|', '-'], r)
      | _ => none

/-- `re.findall(wire_turn_pattern, s)`: emit each match left to right,
stepping over unmatched characters. -/
def wireTokens : Nat → List Char → List String
  | 0, _ => []
  | _ + 1, [] => []
  | fuel + 1, s@(_ :: rest) =>
    match wireTokAt s with
    | some (tok, r) => (⟨tok⟩ : String) :: wireTokens fuel r
    | none => wireTokens fuel rest

/-- The `to`/`wire` classification of a found token list, including the
stripping of the leading `to` from `tokens[1]` (an `IndexError` when a
`to` token exists but the list has fewer than two entries). -/
def classifyWire (tokens : List String) : Except RErr (List Tok) := do
  if tokens.any (fun t => strStarts t "to") then
    let t1 ← opt .indexError (tokens.get? 1)
    let tokens :=
      if strStarts t1 "to[" && strEnds t1 "]" then
        tokens.set 1 ⟨t1.data.drop 2⟩
      else tokens
    pure (some "to" :: tokens.map some)
  else
    pure (some "wire" :: tokens.map some)

/-- The draw/path loop of the tokenizer: skip arrow-bearing statements,
tokenize the rest, classify each. -/
def blocksOfStmts : List (String × String) → Except RErr (List Block)
  | [] => pure []
  | (options, cmd) :: rest =>
    if hasArrowMarker options then blocksOfStmts rest
    else do
      let pre := preToken options cmd
      let toks := wireTokens (pre.length + 1) pre
      let b ← classifyWire toks
      let bs ← blocksOfStmts rest
      pure (some b :: bs)

/-- The per-line node pass of `tokenize_all_draw_contents`, keyed on
the count of `node[` occurrences per line. -/
def nodePass : List (List Char) → Except RErr (List Block)
  | [] => pure []
  | line :: rest => do
    let n := countSubList ("node[".data) line
    if n = 3 then do
      let b ← threeNodeTokens line
      let bs ← nodePass rest
      pure (b :: bs)
    else if n = 2 then do
      let bs ← nodePass rest
      pure (some (twoNodeTokens line) :: bs)
    else if n = 1 then
      match oneNodeBlock line with
      | some toks => do
        let bs ← nodePass rest
        pure (some toks :: bs)
      | none => nodePass rest
    else nodePass rest

/-- `tokenize_all_draw_contents` from the source: all node statements
in line order, then all draw statements in document order, then all
path statements in document order
(`return all_commands if all_commands else None`). -/
def tokenize_all_draw_contents (content : String) :
    Except RErr (Option (List Block)) := do
  let clean := remove_comments content.data
  let nodeBlocks ← nodePass (splitLines clean)
  let drawBlocks ← blocksOfStmts
    (findCmdStmtsAux ("\\draw".data) (clean.length + 1) clean)
  let pathBlocks ← blocksOfStmts
    (findCmdStmtsAux ("\\path".data) (clean.length + 1) clean)
  let allCommands := nodeBlocks ++ drawBlocks ++ pathBlocks
  pure (if allCommands.isEmpty then none else some allCommands)

/-! ## convert.py: block extraction and the document pipeline -/

/-- Split at the earliest occurrence of `pat`: the text before it and
the text after it. -/
def splitAtSub (pat : List Char) : List Char → Option (List Char × List Char)
  | [] => if pat.isEmpty then some ([], []) else none
  | s@(c :: rest) =>
    if pat.isPrefixOf s then some ([], s.drop pat.length)
    else
      match splitAtSub pat rest with
      | some p => some (c :: p.1, p.2)
      | none => none

/-- `extract_circuitikz_content` from the source: the regex
`\\begin\{(circuitikz|tikzpicture)\}(.*?)\\end\{\1\}` with DOTALL.  At
each position where a begin marker starts, the lazy group reaches for
the earliest matching end marker; when none exists the engine moves
on. -/
def extractAux : List Char → Option (List Char)
  | [] => none
  | s@(_ :: rest) =>
    if ("\\begin{circuitikz}".data).isPrefixOf s then
      match splitAtSub ("\\end{circuitikz}".data) (s.drop 18) with
      | some p => some p.1
      | none => extractAux rest
    else if ("\\begin{tikzpicture}".data).isPrefixOf s then
      match splitAtSub ("\\end{tikzpicture}".data) (s.drop 19) with
      | some p => some p.1
      | none => extractAux rest
    else extractAux rest

def extract_circuitikz_content (latex_code : String) : Option String :=
  (extractAux latex_code.data).map fun l => ⟨l⟩

/-- The error document written when no drawing block is found. -/
def errorDoc : JVal :=
  .obj [("error", .s "No valid \\begin{circuitikz} block found.")]

/-- Convert each token block, in order. -/
def convertBlocks : List Block → Except RErr (List JVal)
  | [] => pure []
  | b :: rest => do
    let v ← convert_tokens_to_json b
    let vs ← convertBlocks rest
    pure (v :: vs)

/-- The non-error path of `main` from `convert.py`: tokenize the block
content, convert each token block in order, and wrap the components
with the version tag. -/
def convertContent (content : String) : Except RErr JVal := do
  let tb ← tokenize_all_draw_contents content
  let comps ←
    match tb with
    | some blocks => convertBlocks blocks
    | none => pure []
  pure (.obj [("version", .s "0.1"), ("components", .arr comps)])

/-- The per-document part of `main` from `convert.py`: extract the
drawing block (an empty extracted block is falsy in Python and also
takes the error path), then run the non-error path. -/
def convertDocument (latex_code : String) : Except RErr JVal :=
  match extract_circuitikz_content latex_code with
  | none => .ok errorDoc
  | some content =>
    if content = "" then .ok errorDoc    -- Python: `if not circuit_content:`
    else convertContent content

/-! ## Claim-support definitions -/

/-- Normalization of negative zero, as the spec words it (`−0 → 0`; on
exact rationals this is the identity on the zero case). -/
def negZeroFix (q : ℚ) : ℚ := if q = 0 then 0 else q

/-- Definition following the spec's words for the coordinate transform
(refinement target for C1): x' = raw_x · Sx and y' = −raw_y · Sy, each
rounded to 3 decimals exactly once, after all arithmetic, with −0
normalized to 0. -/
def specTransform (raw_x raw_y : ℚ) : ℚ × ℚ :=
  (negZeroFix (round3 (raw_x * LATEX_TO_JSON_SCALE_X_FACTOR)),
   negZeroFix (round3 (-raw_y * LATEX_TO_JSON_SCALE_Y_FACTOR)))

/-- The presence flags of the three rotation/scale options of a token
text: (xscale present, yscale present, rotate present). -/
def rotFlags (token : String) : Bool × Bool × Bool :=
  ((xscaleCap token).isSome, (yscaleCap token).isSome, (rotateCap token).isSome)

/-- Spec case: x-scale, y-scale and rotation all present. -/
def specCaseAll (f : Bool × Bool × Bool) : Prop := f = (true, true, true)

/-- Spec case: only x-scale present. -/
def specCaseOnlyX (f : Bool × Bool × Bool) : Prop := f = (true, false, false)

/-- Spec case: only y-scale present. -/
def specCaseOnlyY (f : Bool × Bool × Bool) : Prop := f = (false, true, false)

/-- Spec case: only rotation present. -/
def specCaseOnlyRot (f : Bool × Bool × Bool) : Prop := f = (false, false, true)

/-- Spec case: x-scale and y-scale present, no rotation. -/
def specCaseXY (f : Bool × Bool × Bool) : Prop := f = (true, true, false)

/-- A segment of a label text: a non-math run or the content of one
`$...$` span. -/
inductive Seg where
  | nonmath (v : List Char)
  | math (v : List Char)

/-- Well-formedness of a math-span content: no dollar inside and no
trailing backslash (so the closing dollar is not escaped away). -/
def mathOk (m : List Char) : Prop := '$' ∉ m ∧ m.getLast? ≠ some '\\'

/-- Well-formedness of a non-math segment: nonempty, no dollar. -/
def nmOk (v : List Char) : Prop := v ≠ [] ∧ '$' ∉ v

/-- Alternating well-formed segment lists: the shape of a label text
with balanced, non-nested dollar pairs (no two adjacent non-math
segments, every dollar a span delimiter, no escaped closing dollar). -/
inductive WfSegs : List Seg → Prop
  | nil : WfSegs []
  | math (m : List Char) (rest : List Seg) :
      mathOk m → WfSegs rest → WfSegs (Seg.math m :: rest)
  | nmLast (v : List Char) : nmOk v → WfSegs [Seg.nonmath v]
  | nmMath (v m : List Char) (rest : List Seg) :
      nmOk v → mathOk m → WfSegs rest →
      WfSegs (Seg.nonmath v :: Seg.math m :: rest)

/-- The text of one segment. -/
def renderSeg : Seg → List Char
  | .nonmath v => v
  | .math m => '$' :: (m ++ ['$'])

/-- The label text of a segment list. -/
def renderSegs (segs : List Seg) : List Char := (segs.map renderSeg).flatten

/-- The expected output span per segment: a math span with its dollars,
a non-math span with the line-break rewrite applied. -/
def pieceVal : Seg → String
  | .nonmath v => if trimChars v = ['\\', '\\'] then "\n" else ⟨v⟩
  | .math m => ⟨'$' :: (m ++ ['$'])⟩

/-- Concatenation of the returned spans. -/
def concatSpans (l : List String) : String := l.foldl (· ++ ·) ""

/-- The dash pattern of the `dotted` alias, as chunks. -/
def dottedChunks : List DashChunk :=
  [.lit "on ", .num 1, .lit " off ", .num 4]

/-- The C8 statement, in a drawing block. -/
def c8Doc : String :=
  "\\begin{circuitikz}\n\\node[shape=circle, draw, line width=1pt, minimum width=-0.035cm] at (3.5, 8.75){};\n\\end{circuitikz}"

/-- The component the converter actually produces for the C8 statement. -/
def c8Component : JVal :=
  .obj [("type", .s "ellipse"),
    ("position", .obj [("x", .n (132284 / 1000)), ("y", .n (-(330709 / 1000)))]),
    ("size", .obj [("x", .n 0), ("y", .n 0)]),
    ("stroke", .obj [("width", .s "1pt")])]

/-- The C4 failing document: a node statement whose only coordinate is
anchor-relative, so the coordinate list comes back empty. -/
def c4Doc : String :=
  "\\begin{circuitikz}\n\\node[shape=circle, draw] at ([yshift=0.63cm]X1.north){};\n\\end{circuitikz}"

/-- The C3 counterexample document: a drawing block is present but its
content is empty. -/
def c3Doc : String := "\\begin{circuitikz}\\end{circuitikz}"

/-- The C9 counterexample document: a draw statement on the line before
a node statement. -/
def c9Doc : String :=
  "\\begin{circuitikz}\n\\draw (0,0) -- (1,1);\n\\node[shape=circle] at (2,2){};\n\\end{circuitikz}"

/-- The body of `c9Doc`. -/
def c9Content : String := "\n\\draw (0,0) -- (1,1);\n\\node[shape=circle] at (2,2){};\n"

/-- The node-statement token block of `c9Content`. -/
def c9NodeTokens : List Tok :=
  [some "node", some "shape=circle", none, some "(2,2)", some ""]

/-- The draw-statement token block of `c9Content`. -/
def c9WireTokens : List Tok :=
  [some "wire", some "(0,0)", some "--", some "(1,1)"]

/-- The component the converter produces for the node statement of
`c9Content`. -/
def c9NodeComp : JVal :=
  .obj [("type", .s "ellipse"),
    ("position", .obj [("x", .n (75591/1000)), ("y", .n (-(75591/1000)))]),
    ("stroke", .obj [("opacity", .i 0)])]

/-- The component the converter produces for the draw statement of
`c9Content`. -/
def c9WireComp : JVal :=
  .obj [("type", .s "wire"),
    ("points", .arr [pointObj (0, 0),
      pointObj (37795/1000, -(37795/1000))]),
    ("directions", .arr [.s "--"])]

/-- The body of `c8Doc`. -/
def c8Content : String :=
  "\n\\node[shape=circle, draw, line width=1pt, minimum width=-0.035cm] at (3.5, 8.75){};\n"

/-- The token list the tokenizer produces for the C8 statement. -/
def c8Tokens : List Tok :=
  [some "node",
   some "shape=circle, draw, line width=1pt, minimum width=-0.035cm",
   none, some "(3.5, 8.75)", some ""]

/-- The option text of the C8 statement. -/
def c8Opts : String :=
  "shape=circle, draw, line width=1pt, minimum width=-0.035cm"

/-- The component the claim says the C8 statement produces: position
(132.33, −330.71). -/
def c8ClaimComponent : JVal :=
  .obj [("type", .s "ellipse"),
    ("position", .obj [("x", .n (13233/100)), ("y", .n (-(33071/100)))]),
    ("size", .obj [("x", .n 0), ("y", .n 0)]),
    ("stroke", .obj [("width", .s "1pt")])]

/-! ## Helper lemmas -/

theorem opt_some {α : Type} (e : RErr) (a : α) : opt e (some a) = .ok a := rfl

theorem opt_none {α : Type} (e : RErr) : opt e (none : Option α) = .error e := rfl

theorem roundHalfEven_intCast (n : Int) : roundHalfEven (n : ℚ) = n := by
  unfold roundHalfEven
  rw [Int.floor_intCast]
  norm_num

theorem round3_idem (q : ℚ) : round3 (round3 q) = round3 q := by
  unfold round3
  rw [div_mul_cancel₀ _ (by norm_num : (1000 : ℚ) ≠ 0), roundHalfEven_intCast]

theorem clean_eq_round3 (q : ℚ) : clean_numeric_value q = round3 q := by
  unfold clean_numeric_value
  by_cases h : round3 q = 0
  · simp [h]
  · simp [h]

theorem negZeroFix_round3 (q : ℚ) :
    negZeroFix (round3 q) = clean_numeric_value q := rfl

/-! ## C1 -/

/-- C1: for every raw numeric coordinate pair (raw_x, raw_y) the
coordinate transform returns x' = raw_x · Sx and y' = −raw_y · Sy with
Sx = Sy = 37.795286, each rounded to 3 decimal places with negative
zero normalized (the spec-side formula `specTransform`); the result is
a single application of `round3` to the exact product, after all
arithmetic, and the second clean applied by the coordinate-list builder
changes nothing (rounding happens effectively once). -/
theorem c1_coordinate_transform (raw_x raw_y : ℚ) :
    (convert_coordinate raw_x "x", convert_coordinate raw_y "y") =
      specTransform raw_x raw_y ∧
    convert_coordinate raw_x "x" =
      round3 (raw_x * LATEX_TO_JSON_SCALE_X_FACTOR) ∧
    convert_coordinate raw_y "y" =
      round3 (-raw_y * LATEX_TO_JSON_SCALE_Y_FACTOR) ∧
    clean_numeric_value (convert_coordinate raw_x "x") =
      convert_coordinate raw_x "x" ∧
    clean_numeric_value (convert_coordinate raw_y "y") =
      convert_coordinate raw_y "y" := by
  have hx : convert_coordinate raw_x "x" =
      clean_numeric_value (raw_x * LATEX_TO_JSON_SCALE_X_FACTOR) := by
    simp [convert_coordinate]
  have hy : convert_coordinate raw_y "y" =
      clean_numeric_value (-raw_y * LATEX_TO_JSON_SCALE_Y_FACTOR) := by
    simp [convert_coordinate]
  refine ⟨?_, ?_, ?_, ?_, ?_⟩
  · rw [hx, hy]
    unfold specTransform
    rw [negZeroFix_round3, negZeroFix_round3]
  · rw [hx, clean_eq_round3]
  · rw [hy, clean_eq_round3]
  · rw [hx, clean_eq_round3, clean_eq_round3, round3_idem]
  · rw [hy, clean_eq_round3, clean_eq_round3, round3_idem]

/-! ## C2 -/

/-- C2: for every option text without a draw marker, stroke parsing
returns exactly the dictionary with the single entry
`opacity = 0` (a Python int zero) and nothing else. -/
theorem c2_stroke_sentinel (token : String)
    (h : hasSub token "draw" = false) :
    parse_draw_options token = [("opacity", JVal.i 0)] := by
  simp [parse_draw_options, h]

theorem c2_stroke_sentinel_witness :
    hasSub "fill opacity=0.5, line width=2pt" "draw" = false ∧
      parse_draw_options "fill opacity=0.5, line width=2pt" =
        [("opacity", JVal.i 0)] :=
  ⟨by decide, c2_stroke_sentinel "fill opacity=0.5, line width=2pt" (by decide)⟩

/-! ## C7 -/

/-- C7: dash-pattern canonicalization is scale-invariant: whenever
canonicalizing a pattern against line width 1 yields a named style of
the alias table, scaling every on/off length by the same positive
factor and canonicalizing against a stroke of that width yields the
same named style. -/
theorem c7_dash_scale_invariance
    (dash_pattern : List DashChunk) (factor : ℚ) (style : String)
    (hpos : 0 < factor)
    (h : LINE_ALIASES.lookup (scale_dash_pattern dash_pattern 1) = some style) :
    LINE_ALIASES.lookup
      (scale_dash_pattern (scaleDashLengths factor dash_pattern) factor) =
      some style := by
  have hkey : scale_dash_pattern (scaleDashLengths factor dash_pattern) factor =
      scale_dash_pattern dash_pattern 1 := by
    unfold scale_dash_pattern scaleDashLengths
    rw [List.map_map]
    congr 1
    apply List.map_congr_left
    intro c _
    cases c with
    | lit v => rfl
    | num q =>
      have h1 : q * factor / factor = q := by
        field_simp
      have h2 : q / 1 = q := by norm_num
      simp [Function.comp, h1, h2]
  rw [hkey, h]

theorem c7_dash_scale_invariance_witness :
    (0 : ℚ) < 2 ∧
    LINE_ALIASES.lookup (scale_dash_pattern dottedChunks 1) = some "dotted" ∧
    LINE_ALIASES.lookup
      (scale_dash_pattern (scaleDashLengths 2 dottedChunks) 2) =
      some "dotted" := by
  have h1 : pyInt ((1 : ℚ) / 1) = 1 := by norm_num [pyInt]
  have h4 : pyInt ((4 : ℚ) / 1) = 4 := by norm_num [pyInt]
  have hkey : scale_dash_pattern dottedChunks 1 = "on 1pt off 4pt" := by
    simp only [scale_dash_pattern, dottedChunks, List.map, h1, h4]
    decide
  have hL : LINE_ALIASES.lookup (scale_dash_pattern dottedChunks 1) =
      some "dotted" := by
    rw [hkey]; decide
  exact ⟨by norm_num, hL,
    c7_dash_scale_invariance dottedChunks 2 "dotted" (by norm_num) hL⟩

/-! ## C5 -/

/-- C5 counterexample: the option text `xscale=2, rotate=30` has the
presence flags (x-scale: yes, y-scale: no, rotation: yes), which is not
the all-absent combination yet matches none of the five spec cases, so
the five cases are not exhaustive; the code handles it by passing the
rotation through with no scale. -/
theorem c5_counterexample :
    rotFlags "xscale=2, rotate=30" = (true, false, true) ∧
    ¬ specCaseAll (true, false, true) ∧
    ¬ specCaseOnlyX (true, false, true) ∧
    ¬ specCaseOnlyY (true, false, true) ∧
    ¬ specCaseOnlyRot (true, false, true) ∧
    ¬ specCaseXY (true, false, true) ∧
    (true, false, true) ≠ (false, false, false) ∧
    parse_rotation "xscale=2, rotate=30" = (some "30", none) :=
  ⟨by decide, by unfold specCaseAll; decide, by unfold specCaseOnlyX; decide,
   by unfold specCaseOnlyY; decide, by unfold specCaseOnlyRot; decide,
   by unfold specCaseXY; decide, by decide, rfl⟩

/-- C5 (amended): the five named rotation/scale cases are mutually
exclusive, but not exhaustive over the presence-flag combinations other
than all-absent: x-scale+rotation-without-y-scale and
y-scale+rotation-without-x-scale match none of the five and are handled
by passing the rotation through with no scale.  Each named case behaves
per its rule — in particular only-x-scale yields the rotation string
`-180` (a 180° turn stated with negative sign) with both axis scales
the negation of the stated x-scale — and the all-absent case yields no
rotation and no scale. -/
theorem c5_rotation_cases :
    (∀ f : Bool × Bool × Bool,
      ¬ (specCaseAll f ∧ specCaseOnlyX f) ∧ ¬ (specCaseAll f ∧ specCaseOnlyY f) ∧
      ¬ (specCaseAll f ∧ specCaseOnlyRot f) ∧ ¬ (specCaseAll f ∧ specCaseXY f) ∧
      ¬ (specCaseOnlyX f ∧ specCaseOnlyY f) ∧ ¬ (specCaseOnlyX f ∧ specCaseOnlyRot f) ∧
      ¬ (specCaseOnlyX f ∧ specCaseXY f) ∧ ¬ (specCaseOnlyY f ∧ specCaseOnlyRot f) ∧
      ¬ (specCaseOnlyY f ∧ specCaseXY f) ∧ ¬ (specCaseOnlyRot f ∧ specCaseXY f)) ∧
    (∀ t xs ys rs, xscaleCap t = some xs → yscaleCap t = some ys →
      rotateCap t = some rs →
      parse_rotation t = (some rs, some [("x", .s xs), ("y", .s ys)])) ∧
    (∀ t xs, xscaleCap t = some xs → yscaleCap t = none → rotateCap t = none →
      parse_rotation t =
        (some "-180",
         some [("x", .n (-(pyFloat xs))), ("y", .n (-(pyFloat xs)))])) ∧
    (∀ t ys, xscaleCap t = none → yscaleCap t = some ys → rotateCap t = none →
      parse_rotation t = (none, some [("x", .n (-(pyFloat ys))), ("y", .s ys)])) ∧
    (∀ t rs, xscaleCap t = none → yscaleCap t = none → rotateCap t = some rs →
      parse_rotation t = (some rs, none)) ∧
    (∀ t xs ys, xscaleCap t = some xs → yscaleCap t = some ys →
      rotateCap t = none →
      parse_rotation t = (none, some [("x", .s xs), ("y", .s ys)])) ∧
    (∀ t, xscaleCap t = none → yscaleCap t = none → rotateCap t = none →
      parse_rotation t = (none, none)) ∧
    (∀ t xs rs, xscaleCap t = some xs → yscaleCap t = none →
      rotateCap t = some rs → parse_rotation t = (some rs, none)) ∧
    (∀ t ys rs, xscaleCap t = none → yscaleCap t = some ys →
      rotateCap t = some rs → parse_rotation t = (some rs, none)) := by
  refine ⟨?_, ?_, ?_, ?_, ?_, ?_, ?_, ?_, ?_⟩
  · unfold specCaseAll specCaseOnlyX specCaseOnlyY specCaseOnlyRot specCaseXY
    intro f
    rcases f with ⟨a, b, c⟩
    cases a <;> cases b <;> cases c <;> simp
  · intro t xs ys rs h1 h2 h3; simp [parse_rotation, h1, h2, h3]
  · intro t xs h1 h2 h3; simp [parse_rotation, h1, h2, h3]
  · intro t ys h1 h2 h3; simp [parse_rotation, h1, h2, h3]
  · intro t rs h1 h2 h3; simp [parse_rotation, h1, h2, h3]
  · intro t xs ys h1 h2 h3; simp [parse_rotation, h1, h2, h3]
  · intro t h1 h2 h3; simp [parse_rotation, h1, h2, h3]
  · intro t xs rs h1 h2 h3; simp [parse_rotation, h1, h2, h3]
  · intro t ys rs h1 h2 h3; simp [parse_rotation, h1, h2, h3]

theorem c5_rotation_cases_witness :
    xscaleCap "xscale=2" = some "2" ∧ yscaleCap "xscale=2" = none ∧
    rotateCap "xscale=2" = none ∧
    parse_rotation "xscale=2" =
      (some "-180",
       some [("x", .n (-(pyFloat "2"))), ("y", .n (-(pyFloat "2")))]) :=
  ⟨by decide, by decide, by decide,
   c5_rotation_cases.2.2.1 "xscale=2" "2" (by decide) (by decide) (by decide)⟩

/-! ## C10 -/

theorem opacityIsZero_append (l1 l2 l3 l4 : List (String × JVal))
    (h1 : ∀ kv ∈ l1, kv.1 ≠ "opacity")
    (h3 : ∀ kv ∈ l3, kv.1 ≠ "opacity")
    (h4 : ∀ kv ∈ l4, kv.1 ≠ "opacity")
    (h2 : ∀ kv ∈ l2, ∃ s, kv.2 = JVal.s s) :
    opacityIsZero (l1 ++ l2 ++ l3 ++ l4) = false := by
  have hf1 : l1.find? (fun x => x.1 = "opacity") = none :=
    List.find?_eq_none.mpr (by intro x hx; simpa using h1 x hx)
  have hf3 : l3.find? (fun x => x.1 = "opacity") = none :=
    List.find?_eq_none.mpr (by intro x hx; simpa using h3 x hx)
  have hf4 : l4.find? (fun x => x.1 = "opacity") = none :=
    List.find?_eq_none.mpr (by intro x hx; simpa using h4 x hx)
  unfold opacityIsZero dictGet
  rw [List.find?_append, List.find?_append, List.find?_append, hf1, hf3, hf4]
  cases hf2 : l2.find? (fun x => x.1 = "opacity") with
  | none => simp
  | some kv =>
    rcases h2 kv (List.mem_of_find?_eq_some hf2) with ⟨s, hs⟩
    simp [hs]

theorem opacityIsZero_drawStroke (token : String) :
    opacityIsZero (drawStroke token) = false := by
  unfold drawStroke
  apply opacityIsZero_append
  · rcases lineWidthCap token with _ | w <;> simp
  · rcases dashPatternCap token with _ | d
    · simp
    · rcases hL : List.lookup
        (scale_dash_pattern (parseDashChunks d)
          (match lineWidthCap token with
           | some w => pyFloat ⟨w.data.take (w.length - 2)⟩
           | none => 1)) LINE_ALIASES with _ | st <;> simp [hL]
  · rcases drawColorCap token with _ | c
    · simp
    · rcases hR : rgbCap c with _ | ⟨r, g, b⟩ <;> simp [hR]
  · rcases drawOpacityCap token with _ | o <;> simp

theorem wireStrokeGuard_false (token : String) :
    wireStrokeGuard (parse_draw_options token) = false := by
  unfold parse_draw_options
  by_cases h : hasSub token "draw"
  · simp only [h, if_true, wireStrokeGuard, opacityIsZero_drawStroke,
      Bool.and_false]
  · simp only [h]
    rfl

/-- C10: the wire branch's guard
`not set(stroke.keys()) == {"opacity"} and stroke.get("opacity") == 0`
is never satisfied — the stroke parser only produces the integer
opacity 0 in the sentinel (where the key set is exactly `{opacity}`)
and strings otherwise — so a wire record's stroke comes solely from
`build_new_wire_component`; in particular a wire whose options carry a
draw marker but no line-width option gets no stroke from that guard. -/
theorem c10_wire_guard_never_fires :
    (∀ token : String, wireStrokeGuard (parse_draw_options token) = false) ∧
    ∀ (tokens : List Tok) (coords : List (ℚ × ℚ)) (options t1 : String)
      (result : List (String × JVal)),
      tokens.getLast? = some (some options) →
      tokens.get? 1 = some (some t1) →
      build_new_wire_component coords (wireDirections tokens) options =
        .ok result →
      convertWire tokens coords = .ok (.obj result) := by
  refine ⟨wireStrokeGuard_false, ?_⟩
  intro tokens coords options t1 result hlast h1 hbuild
  unfold convertWire
  rw [hlast, h1]
  simp only [opt_some, hbuild, bind, Except.bind, wireStrokeGuard_false,
    Bool.false_eq_true, if_false]
  rfl

theorem c10_wire_guard_never_fires_witness :
    ([some "wire", some "(0,0)", some "--", some "(1,1)"] :
        List Tok).getLast? = some (some "(1,1)") ∧
    ([some "wire", some "(0,0)", some "--", some "(1,1)"] :
        List Tok).get? 1 = some (some "(0,0)") ∧
    build_new_wire_component [(0, 0), (1, 1)]
        (wireDirections [some "wire", some "(0,0)", some "--", some "(1,1)"])
        "(1,1)" =
      .ok [("type", .s "wire"),
        ("points", .arr [pointObj (0, 0), pointObj (1, 1)]),
        ("directions", .arr [.s "--"])] ∧
    convertWire [some "wire", some "(0,0)", some "--", some "(1,1)"]
        [(0, 0), (1, 1)] =
      .ok (.obj [("type", .s "wire"),
        ("points", .arr [pointObj (0, 0), pointObj (1, 1)]),
        ("directions", .arr [.s "--"])]) :=
  ⟨rfl, rfl, rfl,
   c10_wire_guard_never_fires.2
     [some "wire", some "(0,0)", some "--", some "(1,1)"]
     [(0, 0), (1, 1)] "(1,1)" "(0,0)" _ rfl rfl rfl⟩

/-! ## C3 -/

theorem convertContent_ne_errorDoc (content : String) :
    convertContent content ≠ .ok errorDoc := by
  unfold convertContent
  cases htb : tokenize_all_draw_contents content with
  | error e => simp [bind, Except.bind]
  | ok tb =>
    cases tb with
    | none =>
      simp [bind, Except.bind, pure, Except.pure, errorDoc]
    | some blocks =>
      cases hcb : convertBlocks blocks with
      | error e => simp [bind, Except.bind, hcb]
      | ok comps => simp [bind, Except.bind, hcb, pure, Except.pure, errorDoc]

/-- C3 counterexample: the document `\begin{circuitikz}\end{circuitikz}`
contains a drawing block with matching begin/end markers, yet the
converter still produces the error document, because Python treats the
extracted empty content as missing (`if not circuit_content:`). -/
theorem c3_counterexample :
    (extract_circuitikz_content c3Doc).isSome = true ∧
    convertDocument c3Doc = .ok errorDoc :=
  ⟨by decide, rfl⟩

/-- C3 (amended): the converter produces exactly the error document
(a structurally different document with no components field) precisely
when no drawing block is found or the found block's content is empty;
for every document whose block has nonempty content the error document
is never produced. -/
theorem c3_error_document (doc : String) :
    convertDocument doc = .ok errorDoc ↔
      extract_circuitikz_content doc = none ∨
        extract_circuitikz_content doc = some "" := by
  unfold convertDocument
  cases hext : extract_circuitikz_content doc with
  | none => simp
  | some content =>
    by_cases hc : content = ""
    · subst hc
      simp
    · show (if content = "" then Except.ok errorDoc else convertContent content) =
          Except.ok errorDoc ↔ _
      rw [if_neg hc]
      simp [hc, convertContent_ne_errorDoc content]

/-! ## C4 -/

/-- C4: converting a document whose node statement carries only an
anchor-relative coordinate drops every coordinate, and the element
builder's unconditional access to the first coordinate
(`coord_dict[0]`) raises an IndexError that propagates out of the
document conversion — the code does not tolerate the shorter-than-
expected coordinate list that the spec requires it to tolerate. -/
theorem c4_relative_coordinate_crash :
    convertDocument c4Doc = .error .indexError ∧
    tokenize_all_draw_contents "\n\\node[shape=circle, draw] at ([yshift=0.63cm]X1.north){};\n" =
      .ok (some [some [some "node", some "shape=circle, draw", none,
        some "([yshift=0.63cm]X1.north)", some ""]]) ∧
    get_coordinate_list [some "node", some "shape=circle, draw", none,
      some "([yshift=0.63cm]X1.north)", some ""] = [] :=
  ⟨rfl, rfl, rfl⟩

/-! ## C6 -/

theorem starMatchAux_exact :
    ∀ (fuel : Nat) (content rest : List Char),
      content.length < fuel → '$' ∉ content →
      content.getLast? ≠ some '\\' →
      starMatchAux fuel (content ++ '$' :: rest) = some (content, rest) := by
  intro fuel
  induction fuel with
  | zero => intro content rest h _ _; omega
  | succ fuel ih =>
    intro content rest hlen hdol hlast
    cases content with
    | nil => simp [starMatchAux]
    | cons c cs =>
      have hc : ¬ c = '$' := by
        intro h; subst h; exact hdol (List.mem_cons_self _ _)
      by_cases hb : c = '\\'
      · subst hb
        cases cs with
        | nil => exact absurd rfl hlast
        | cons d cs' =>
          have hih : starMatchAux fuel (cs' ++ '$' :: rest) = some (cs', rest) := by
            apply ih
            · simp only [List.length_cons] at hlen; omega
            · intro h
              exact hdol (List.mem_cons_of_mem _ (List.mem_cons_of_mem _ h))
            · cases cs' with
              | nil => simp
              | cons e es =>
                intro h
                apply hlast
                rw [List.getLast?_cons_cons, List.getLast?_cons_cons]
                exact h
          simp [starMatchAux, hc, hih]
      · have hih : starMatchAux fuel (cs ++ '$' :: rest) = some (cs, rest) := by
          apply ih
          · simp only [List.length_cons] at hlen; omega
          · intro h; exact hdol (List.mem_cons_of_mem _ h)
          · cases cs with
            | nil => simp
            | cons e es =>
              intro h
              apply hlast
              rw [List.getLast?_cons_cons]
              exact h
        simp [starMatchAux, hc, hb, hih]

theorem findMath_none (s : List Char) (h : '$' ∉ s) : findMath s = none := by
  induction s with
  | nil => rfl
  | cons c cs ih =>
    have hc : ¬ c = '$' := by
      intro hh; subst hh; exact h (List.mem_cons_self _ _)
    have hcs : '$' ∉ cs := fun hh => h (List.mem_cons_of_mem _ hh)
    simp [findMath, hc, ih hcs]

theorem findMath_exact (pre m rest : List Char)
    (hpre : '$' ∉ pre) (hm : mathOk m) :
    findMath (pre ++ '$' :: (m ++ '$' :: rest)) =
      some (pre, '$' :: (m ++ ['$']), rest) := by
  induction pre with
  | nil =>
    have hs : starMatch (m ++ '$' :: rest) = some (m, rest) := by
      unfold starMatch
      apply starMatchAux_exact
      · simp only [List.length_append, List.length_cons]; omega
      · exact hm.1
      · exact hm.2
    simp [findMath, hs]
  | cons c pre' ih =>
    have hc : ¬ c = '$' := by
      intro hh; subst hh; exact hpre (List.mem_cons_self _ _)
    have hpre' : '$' ∉ pre' := fun hh => hpre (List.mem_cons_of_mem _ hh)
    simp [findMath, hc, ih hpre']

theorem rawPiecesAux_render :
    ∀ (fuel : Nat) (segs : List Seg), WfSegs segs →
      (renderSegs segs).length < fuel →
      rawPiecesAux fuel (renderSegs segs) = segs.map renderSeg := by
  intro fuel
  induction fuel with
  | zero => intro segs _ h; omega
  | succ fuel ih =>
    intro segs hwf hlen
    cases hwf with
    | nil => simp [rawPiecesAux, renderSegs, findMath]
    | math m rest hm hrest =>
      have hr : renderSegs (Seg.math m :: rest) =
          '$' :: (m ++ '$' :: renderSegs rest) := by
        simp [renderSegs, renderSeg]
      have hf := findMath_exact [] m (renderSegs rest) (by simp) hm
      simp only [List.nil_append] at hf
      rw [hr] at hlen ⊢
      have hlen' : (renderSegs rest).length < fuel := by
        simp only [List.length_cons, List.length_append] at hlen
        omega
      simp only [rawPiecesAux, hf]
      rw [ih rest hrest hlen']
      simp [renderSeg]
    | nmLast v hv =>
      have hr : renderSegs [Seg.nonmath v] = v := by
        simp [renderSegs, renderSeg]
      rw [hr] at hlen ⊢
      have hf : findMath v = none := findMath_none v hv.2
      simp only [rawPiecesAux, hf]
      rw [if_neg hv.1]
      simp [renderSeg]
    | nmMath v m rest hv hm hrest =>
      have hr : renderSegs (Seg.nonmath v :: Seg.math m :: rest) =
          v ++ '$' :: (m ++ '$' :: renderSegs rest) := by
        simp [renderSegs, renderSeg]
      have hf := findMath_exact v m (renderSegs rest) hv.2 hm
      rw [hr] at hlen ⊢
      have hlen' : (renderSegs rest).length < fuel := by
        simp only [List.length_append, List.length_cons] at hlen
        omega
      simp only [rawPiecesAux, hf]
      rw [if_neg hv.1]
      rw [ih rest hrest hlen']
      simp [renderSeg]

theorem dropWhile_append_singleton (p : Char → Bool) (c : Char)
    (hc : p c = false) :
    ∀ l : List Char, ∃ t, List.dropWhile p (l ++ [c]) = t ++ [c] := by
  intro l
  induction l with
  | nil => exact ⟨[], by simp [List.dropWhile, hc]⟩
  | cons a l ih =>
    by_cases ha : p a
    · rcases ih with ⟨t, ht⟩
      exact ⟨t, by simp [List.dropWhile, ha, ht]⟩
    · exact ⟨a :: l, by simp [List.dropWhile, ha]⟩

theorem trimChars_cons_head (c : Char) (l : List Char)
    (hc : isPyWs c = false) :
    (trimChars (c :: l)).head? = some c := by
  unfold trimChars
  rw [List.dropWhile_cons_of_neg (by simp [hc])]
  rcases dropWhile_append_singleton isPyWs c hc l.reverse with ⟨t, ht⟩
  rw [show (c :: l).reverse = l.reverse ++ [c] by simp, ht]
  simp

/-- C6 counterexample: the text `a$x$\\` has balanced, non-nested
dollar pairs (two dollars, none escaped), yet concatenating the
returned spans does not reproduce the original text, because the span
consisting of the line-break command `\\` is rewritten to a line
feed. -/
theorem c6_counterexample :
    countChar '$' ("a$x$\\\\").data = 2 ∧
    ¬ hasSubList ['\\', '$'] ("a$x$\\\\").data ∧
    parse_label_mixed_latex "a$x$\\\\" = ["a", "$x$", "\n"] ∧
    concatSpans (parse_label_mixed_latex "a$x$\\\\") ≠ "a$x$\\\\" :=
  ⟨by decide, by decide, rfl, by decide⟩

/-- C6 (amended): for every label text made of alternating well-formed
segments (balanced, non-nested dollar pairs; every dollar a span
delimiter; no math span content ending in a backslash, so no closing
dollar is escaped), the splitter returns exactly one span per segment
in order — it never splits inside a math span, the number of spans
equals the number of math spans plus the number of interleaved
non-math spans, and concatenating the spans reproduces the original
text except that a span consisting of the line-break command `\\` is
rewritten to a line feed. -/
theorem c6_label_splitting (segs : List Seg) (hwf : WfSegs segs) :
    parse_label_mixed_latex ⟨renderSegs segs⟩ = segs.map pieceVal ∧
    (parse_label_mixed_latex ⟨renderSegs segs⟩).length = segs.length := by
  have hraw : rawPiecesAux ((renderSegs segs).length + 1) (renderSegs segs) =
      segs.map renderSeg :=
    rawPiecesAux_render _ _ hwf (by omega)
  have hmain : parse_label_mixed_latex ⟨renderSegs segs⟩ = segs.map pieceVal := by
    show (rawPiecesAux ((renderSegs segs).length + 1) (renderSegs segs)).map _ =
      _
    rw [hraw, List.map_map]
    apply List.map_congr_left
    intro sg _
    cases sg with
    | nonmath v => rfl
    | math m =>
      have hh : (trimChars ('$' :: (m ++ ['$']))).head? = some '$' :=
        trimChars_cons_head '$' (m ++ ['$']) (by decide)
      have hne : trimChars ('$' :: (m ++ ['$'])) ≠ ['\\', '\\'] := by
        intro h
        rw [h] at hh
        exact absurd (Option.some.inj hh) (by decide)
      simp only [Function.comp, renderSeg, pieceVal, if_neg hne]
  exact ⟨hmain, by rw [hmain]; simp⟩

theorem c6_label_splitting_witness :
    WfSegs [Seg.nonmath ("a ").data, Seg.math ("x").data,
      Seg.nonmath (" \\\\").data] ∧
    parse_label_mixed_latex "a $x$ \\\\" = ["a ", "$x$", "\n"] := by
  have hwf : WfSegs [Seg.nonmath ("a ").data, Seg.math ("x").data,
      Seg.nonmath (" \\\\").data] := by
    apply WfSegs.nmMath
    · exact ⟨by decide, by decide⟩
    · exact ⟨by decide, by decide⟩
    · exact WfSegs.nmLast _ ⟨by decide, by decide⟩
  refine ⟨hwf, ?_⟩
  have h := (c6_label_splitting _ hwf).1
  have hrender : (⟨renderSegs [Seg.nonmath ("a ").data, Seg.math ("x").data,
      Seg.nonmath (" \\\\").data]⟩ : String) = "a $x$ \\\\" := by decide
  rw [hrender] at h
  rw [h]
  decide

/-! ## C8 -/

theorem c8_parse1 : parseDec "3.5".data = 7/2 := by
  have hs : decSplit "3.5".data = (false, ['3'], ['5']) := by decide
  have h1 : natOfDigits ['3'] = 3 := by decide
  have h2 : natOfDigits ['5'] = 5 := by decide
  simp [parseDec, hs, h1, h2]
  norm_num

theorem c8_parse2 : parseDec " 8.75".data = 35/4 := by
  have hs : decSplit " 8.75".data = (false, ['8'], ['7','5']) := by decide
  have h1 : natOfDigits ['8'] = 8 := by decide
  have h2 : natOfDigits ['7','5'] = 75 := by decide
  simp [parseDec, hs, h1, h2]
  norm_num

theorem c8_x : clean_numeric_value (convert_coordinate (7/2) "x") =
    132284/1000 := by
  norm_num [clean_numeric_value, convert_coordinate, round3, roundHalfEven,
    LATEX_TO_JSON_SCALE_X_FACTOR]

theorem c8_y : clean_numeric_value (convert_coordinate (35/4) "y") =
    -(330709/1000) := by
  have h : convert_coordinate (35/4) "y" =
      clean_numeric_value (-(35/4) * LATEX_TO_JSON_SCALE_Y_FACTOR) := by
    simp [convert_coordinate]
  rw [h]
  norm_num [clean_numeric_value, round3, roundHalfEven,
    LATEX_TO_JSON_SCALE_Y_FACTOR]

theorem c8_shape (loc : JVal) : parse_shape_size c8Opts loc =
    .ok [("type", .s "ellipse"), ("position", loc),
      ("size", .obj [("x", .n 0), ("y", .n 0)])] := by
  have hp : pyFloat "-0.035" = -(7/200) := by
    show parseDec "-0.035".data = -(7/200)
    have hs : decSplit "-0.035".data = (true, ['0'], ['0','3','5']) := by decide
    have h1 : natOfDigits ['0'] = 0 := by decide
    have h2 : natOfDigits ['0','3','5'] = 35 := by decide
    simp [parseDec, hs, h1, h2]
    norm_num
  have hw : max 0 (round3 (pyFloat "-0.035" * LATEX_TO_JSON_SCALE_SHAPE_FACTOR)) =
      0 := by
    rw [hp]
    norm_num [round3, roundHalfEven, LATEX_TO_JSON_SCALE_SHAPE_FACTOR]
  show Except.ok (dictSet [("type", JVal.s "ellipse"), ("position", loc)] "size"
      (.obj [("x", .n (max 0 (round3 (pyFloat "-0.035" *
          LATEX_TO_JSON_SCALE_SHAPE_FACTOR)))),
        ("y", .n (max 0 (round3 (pyFloat "-0.035" *
          LATEX_TO_JSON_SCALE_SHAPE_FACTOR))))])) = _
  rw [hw]
  rfl

theorem c8_node (start : JVal) : convertNode c8Tokens start =
    .ok (.obj [("type", .s "ellipse"), ("position", start),
      ("size", .obj [("x", .n 0), ("y", .n 0)]),
      ("stroke", .obj [("width", .s "1pt")])]) := by
  show (parse_shape_size c8Opts start >>= fun result =>
      pure (JVal.obj (dictSet result "stroke"
        (.obj (parse_draw_options c8Opts))))) = _
  rw [c8_shape]
  rfl

theorem c8_coords : get_coordinate_list c8Tokens =
    [((132284:ℚ)/1000, -(330709/1000))] := by
  have hcs : coordStrings c8Tokens = [("3.5".data, " 8.75".data)] := by decide
  rw [get_coordinate_list, hcs]
  show [(clean_numeric_value (convert_coordinate (parseDec "3.5".data) "x"),
        clean_numeric_value (convert_coordinate (parseDec " 8.75".data) "y"))] = _
  rw [c8_parse1, c8_parse2, c8_x, c8_y]

theorem c8_blockResult : convert_tokens_to_json (some c8Tokens) =
    .ok c8Component := by
  show (opt RErr.indexError ((get_coordinate_list c8Tokens).get? 0) >>=
      fun startP => convertNode c8Tokens (pointObj startP)) = _
  rw [c8_coords]
  exact c8_node _

theorem c8_contentResult : convertContent c8Content =
    .ok (.obj [("version", .s "0.1"), ("components", .arr [c8Component])]) := by
  have htok : tokenize_all_draw_contents c8Content =
      .ok (some [some c8Tokens]) := rfl
  show (tokenize_all_draw_contents c8Content >>= fun tb =>
      (match tb with
       | some blocks => convertBlocks blocks
       | none => pure []) >>= fun comps =>
      pure (JVal.obj [("version", JVal.s "0.1"),
        ("components", JVal.arr comps)])) = _
  rw [htok]
  show ((convert_tokens_to_json (some c8Tokens) >>= fun v =>
        convertBlocks [] >>= fun vs => pure (v :: vs)) >>= fun comps =>
      pure (JVal.obj [("version", JVal.s "0.1"),
        ("components", JVal.arr comps)])) = _
  rw [c8_blockResult]
  rfl

theorem c8_docResult : convertDocument c8Doc =
    .ok (.obj [("version", .s "0.1"),
      ("components", .arr [c8Component])]) := by
  have hext : extract_circuitikz_content c8Doc = some c8Content := rfl
  unfold convertDocument
  rw [hext]
  show (if c8Content = "" then Except.ok errorDoc
      else convertContent c8Content) = _
  rw [if_neg (by decide : ¬ c8Content = "")]
  exact c8_contentResult

/-- C8 counterexample: converting the claimed statement produces exactly
one component, but its position is (132.284, −330.709), not the claimed
(132.33, −330.71) — the produced component differs from the claimed
component. -/
theorem c8_counterexample :
    convertDocument c8Doc =
      .ok (.obj [("version", .s "0.1"),
        ("components", .arr [c8Component])]) ∧
    c8Component ≠ c8ClaimComponent := by
  refine ⟨c8_docResult, ?_⟩
  intro h
  simp only [c8Component, c8ClaimComponent, JVal.obj.injEq, List.cons.injEq,
    Prod.mk.injEq, JVal.n.injEq, and_true, true_and] at h
  norm_num at h

/-- C8 (amended): converting the single statement
`\node[shape=circle, draw, line width=1pt, minimum width=-0.035cm] at
(3.5, 8.75){};` produces exactly one component
`{type: "ellipse", position: {x: 132.284, y: -330.709},
size: {x: 0, y: 0}, stroke: {width: "1pt"}}` — the negative minimum
width is clamped to 0, the height mirrors the clamped width, and the
position is the raw pair scaled by Sx/Sy (y negated) and rounded to 3
decimals, which gives 132.284 and −330.709, not the claimed 132.33 and
−330.71. -/
theorem c8_end_to_end :
    convertDocument c8Doc =
      .ok (.obj [("version", .s "0.1"),
        ("components", .arr [.obj [("type", .s "ellipse"),
          ("position", .obj [("x", .n (132284/1000)),
            ("y", .n (-(330709/1000)))]),
          ("size", .obj [("x", .n 0), ("y", .n 0)]),
          ("stroke", .obj [("width", .s "1pt")])]])]) := c8_docResult

/-! ## C9 -/

theorem t9_node (start : JVal) : convertNode c9NodeTokens start =
    .ok (.obj [("type", .s "ellipse"), ("position", start),
      ("stroke", .obj [("opacity", .i 0)])]) := rfl

theorem t9_wire (p0 p1 : ℚ × ℚ) : convertWire c9WireTokens [p0, p1] =
    .ok (.obj [("type", .s "wire"),
      ("points", .arr [pointObj p0, pointObj p1]),
      ("directions", .arr [.s "--"])]) := rfl

theorem t9_p0 : parseDec "0".data = 0 := by
  have hs : decSplit "0".data = (false, ['0'], []) := by decide
  have h1 : natOfDigits ['0'] = 0 := by decide
  have h2 : natOfDigits ([] : List Char) = 0 := by decide
  simp [parseDec, hs, h1, h2]

theorem t9_p1 : parseDec "1".data = 1 := by
  have hs : decSplit "1".data = (false, ['1'], []) := by decide
  have h1 : natOfDigits ['1'] = 1 := by decide
  have h2 : natOfDigits ([] : List Char) = 0 := by decide
  simp [parseDec, hs, h1, h2]

theorem t9_p2 : parseDec "2".data = 2 := by
  have hs : decSplit "2".data = (false, ['2'], []) := by decide
  have h1 : natOfDigits ['2'] = 2 := by decide
  have h2 : natOfDigits ([] : List Char) = 0 := by decide
  simp [parseDec, hs, h1, h2]

theorem t9_x0 : clean_numeric_value (convert_coordinate 0 "x") = 0 := by
  norm_num [clean_numeric_value, convert_coordinate, round3, roundHalfEven,
    LATEX_TO_JSON_SCALE_X_FACTOR]

theorem t9_y0 : clean_numeric_value (convert_coordinate 0 "y") = 0 := by
  have h : convert_coordinate 0 "y" =
      clean_numeric_value (-0 * LATEX_TO_JSON_SCALE_Y_FACTOR) := by
    simp [convert_coordinate]
  rw [h]
  norm_num [clean_numeric_value, round3, roundHalfEven,
    LATEX_TO_JSON_SCALE_Y_FACTOR]

theorem t9_x1 : clean_numeric_value (convert_coordinate 1 "x") =
    37795/1000 := by
  norm_num [clean_numeric_value, convert_coordinate, round3, roundHalfEven,
    LATEX_TO_JSON_SCALE_X_FACTOR]

theorem t9_y1 : clean_numeric_value (convert_coordinate 1 "y") =
    -(37795/1000) := by
  have h : convert_coordinate 1 "y" =
      clean_numeric_value (-1 * LATEX_TO_JSON_SCALE_Y_FACTOR) := by
    simp [convert_coordinate]
  rw [h]
  norm_num [clean_numeric_value, round3, roundHalfEven,
    LATEX_TO_JSON_SCALE_Y_FACTOR]

theorem t9_x2 : clean_numeric_value (convert_coordinate 2 "x") =
    75591/1000 := by
  norm_num [clean_numeric_value, convert_coordinate, round3, roundHalfEven,
    LATEX_TO_JSON_SCALE_X_FACTOR]

theorem t9_y2 : clean_numeric_value (convert_coordinate 2 "y") =
    -(75591/1000) := by
  have h : convert_coordinate 2 "y" =
      clean_numeric_value (-2 * LATEX_TO_JSON_SCALE_Y_FACTOR) := by
    simp [convert_coordinate]
  rw [h]
  norm_num [clean_numeric_value, round3, roundHalfEven,
    LATEX_TO_JSON_SCALE_Y_FACTOR]

theorem t9_coordsNode : get_coordinate_list c9NodeTokens =
    [((75591:ℚ)/1000, -(75591/1000))] := by
  have hcs : coordStrings c9NodeTokens = [("2".data, "2".data)] := by decide
  rw [get_coordinate_list, hcs]
  show [(clean_numeric_value (convert_coordinate (parseDec "2".data) "x"),
        clean_numeric_value (convert_coordinate (parseDec "2".data) "y"))] = _
  rw [t9_p2, t9_x2, t9_y2]

theorem t9_coordsWire : get_coordinate_list c9WireTokens =
    [((0:ℚ), (0:ℚ)), ((37795:ℚ)/1000, -(37795/1000))] := by
  have hcs : coordStrings c9WireTokens =
      [("0".data, "0".data), ("1".data, "1".data)] := by decide
  rw [get_coordinate_list, hcs]
  show [(clean_numeric_value (convert_coordinate (parseDec "0".data) "x"),
        clean_numeric_value (convert_coordinate (parseDec "0".data) "y")),
       (clean_numeric_value (convert_coordinate (parseDec "1".data) "x"),
        clean_numeric_value (convert_coordinate (parseDec "1".data) "y"))] = _
  rw [t9_p0, t9_p1, t9_x0, t9_y0, t9_x1, t9_y1]

theorem t9_block1 : convert_tokens_to_json (some c9NodeTokens) =
    .ok c9NodeComp := by
  show (opt RErr.indexError ((get_coordinate_list c9NodeTokens).get? 0) >>=
      fun startP => convertNode c9NodeTokens (pointObj startP)) = _
  rw [t9_coordsNode]
  exact t9_node _

theorem t9_block2 : convert_tokens_to_json (some c9WireTokens) =
    .ok c9WireComp := by
  show (opt RErr.indexError ((get_coordinate_list c9WireTokens).get? 0) >>=
      fun _ => convertWire c9WireTokens (get_coordinate_list c9WireTokens)) = _
  rw [t9_coordsWire]
  exact t9_wire _ _

theorem t9_blocks : convertBlocks [some c9NodeTokens, some c9WireTokens] =
    .ok [c9NodeComp, c9WireComp] := by
  show ((convert_tokens_to_json (some c9NodeTokens) >>= fun v =>
      (convert_tokens_to_json (some c9WireTokens) >>= fun v2 =>
        convertBlocks [] >>= fun vs2 => pure (v2 :: vs2)) >>= fun vs =>
      pure (v :: vs))) = _
  rw [t9_block1, t9_block2]
  rfl

theorem t9_content : convertContent c9Content =
    .ok (.obj [("version", .s "0.1"),
      ("components", .arr [c9NodeComp, c9WireComp])]) := by
  have htok : tokenize_all_draw_contents c9Content =
      .ok (some [some c9NodeTokens, some c9WireTokens]) := rfl
  show (tokenize_all_draw_contents c9Content >>= fun tb =>
      (match tb with
       | some blocks => convertBlocks blocks
       | none => pure []) >>= fun comps =>
      pure (JVal.obj [("version", JVal.s "0.1"),
        ("components", JVal.arr comps)])) = _
  rw [htok]
  show (convertBlocks [some c9NodeTokens, some c9WireTokens] >>= fun comps =>
      pure (JVal.obj [("version", JVal.s "0.1"),
        ("components", JVal.arr comps)])) = _
  rw [t9_blocks]
  rfl

theorem t9_doc : convertDocument c9Doc =
    .ok (.obj [("version", .s "0.1"),
      ("components", .arr [c9NodeComp, c9WireComp])]) := by
  have hext : extract_circuitikz_content c9Doc = some c9Content := rfl
  unfold convertDocument
  rw [hext]
  show (if c9Content = "" then Except.ok errorDoc
      else convertContent c9Content) = _
  rw [if_neg (by decide : ¬ c9Content = "")]
  exact t9_content

theorem convertBlocks_get :
    ∀ (blocks : List Block) (comps : List JVal) (i : Nat) (b : Block)
      (c : JVal),
      convertBlocks blocks = .ok comps →
      blocks.get? i = some b → comps.get? i = some c →
      convert_tokens_to_json b = .ok c := by
  intro blocks
  induction blocks with
  | nil => intro comps i b c _ hb _; simp at hb
  | cons hd tl ih =>
    intro comps i b c hcb hb hc
    rcases h1 : convert_tokens_to_json hd with e | v
    · rw [show convertBlocks (hd :: tl) =
          (convert_tokens_to_json hd >>= fun v =>
            convertBlocks tl >>= fun vs => pure (v :: vs)) from rfl,
        h1] at hcb
      simp [bind, Except.bind] at hcb
    · rcases h2 : convertBlocks tl with e2 | vs
      · rw [show convertBlocks (hd :: tl) =
            (convert_tokens_to_json hd >>= fun v =>
              convertBlocks tl >>= fun vs => pure (v :: vs)) from rfl,
          h1, h2] at hcb
        simp [bind, Except.bind] at hcb
      · rw [show convertBlocks (hd :: tl) =
            (convert_tokens_to_json hd >>= fun v =>
              convertBlocks tl >>= fun vs => pure (v :: vs)) from rfl,
          h1, h2] at hcb
        simp only [bind, Except.bind, pure, Except.pure, Except.ok.injEq] at hcb
        subst hcb
        cases i with
        | zero =>
          rw [List.get?_cons_zero] at hb hc
          obtain rfl : hd = b := Option.some.inj hb
          obtain rfl : v = c := Option.some.inj hc
          exact h1
        | succ i =>
          rw [List.get?_cons_succ] at hb hc
          exact ih vs i b c h2 hb hc

theorem convertBlocks_length :
    ∀ (blocks : List Block) (comps : List JVal),
      convertBlocks blocks = .ok comps → comps.length = blocks.length := by
  intro blocks
  induction blocks with
  | nil =>
    intro comps h
    simp only [convertBlocks, pure, Except.pure, Except.ok.injEq] at h
    subst h; rfl
  | cons hd tl ih =>
    intro comps hcb
    rcases h1 : convert_tokens_to_json hd with e | v
    · rw [show convertBlocks (hd :: tl) =
          (convert_tokens_to_json hd >>= fun v =>
            convertBlocks tl >>= fun vs => pure (v :: vs)) from rfl,
        h1] at hcb
      simp [bind, Except.bind] at hcb
    · rcases h2 : convertBlocks tl with e2 | vs
      · rw [show convertBlocks (hd :: tl) =
            (convert_tokens_to_json hd >>= fun v =>
              convertBlocks tl >>= fun vs => pure (v :: vs)) from rfl,
          h1, h2] at hcb
        simp [bind, Except.bind] at hcb
      · rw [show convertBlocks (hd :: tl) =
            (convert_tokens_to_json hd >>= fun v =>
              convertBlocks tl >>= fun vs => pure (v :: vs)) from rfl,
          h1, h2] at hcb
        simp only [bind, Except.bind, pure, Except.pure, Except.ok.injEq] at hcb
        subst hcb
        simp [ih vs h2]

theorem tokenize_emission_order (content : String)
    (nodeBlocks drawBlocks pathBlocks : List Block)
    (h1 : nodePass (splitLines (remove_comments content.data)) =
      .ok nodeBlocks)
    (h2 : blocksOfStmts (findCmdStmtsAux ("\\draw".data)
      ((remove_comments content.data).length + 1)
      (remove_comments content.data)) = .ok drawBlocks)
    (h3 : blocksOfStmts (findCmdStmtsAux ("\\path".data)
      ((remove_comments content.data).length + 1)
      (remove_comments content.data)) = .ok pathBlocks)
    (hne : nodeBlocks ++ drawBlocks ++ pathBlocks ≠ []) :
    tokenize_all_draw_contents content =
      .ok (some (nodeBlocks ++ drawBlocks ++ pathBlocks)) := by
  show (nodePass (splitLines (remove_comments content.data)) >>= fun nb =>
      blocksOfStmts (findCmdStmtsAux ("\\draw".data)
        ((remove_comments content.data).length + 1)
        (remove_comments content.data)) >>= fun db =>
      blocksOfStmts (findCmdStmtsAux ("\\path".data)
        ((remove_comments content.data).length + 1)
        (remove_comments content.data)) >>= fun pb =>
      pure (if (nb ++ db ++ pb).isEmpty = true then none
        else some (nb ++ db ++ pb))) = _
  rw [h1, h2, h3]
  simp only [bind, Except.bind]
  have hF : (nodeBlocks ++ drawBlocks ++ pathBlocks).isEmpty = false := by
    rcases h : nodeBlocks ++ drawBlocks ++ pathBlocks with _ | ⟨a, l⟩
    · exact absurd h hne
    · rfl
  simp [pure, Except.pure, hF]
  intro ha hb hc
  exact hne (by rw [ha, hb, hc]; rfl)

/-- C9 counterexample: in the source content the draw statement starts
at index 1 and the node statement at index 23, so the draw statement
comes first in source order; yet the tokenizer emits the node block
first, and the converted document lists the node-derived ellipse before
the draw-derived wire — the components list is not in source statement
order. -/
theorem c9_counterexample :
    (∃ i j, indexOfSub ("\\draw".data) c9Content.data = some i ∧
      indexOfSub ("\\node".data) c9Content.data = some j ∧ i < j) ∧
    tokenize_all_draw_contents c9Content =
      .ok (some [some c9NodeTokens, some c9WireTokens]) ∧
    convertDocument c9Doc =
      .ok (.obj [("version", .s "0.1"),
        ("components", .arr [c9NodeComp, c9WireComp])]) :=
  ⟨⟨1, 23, by decide, by decide, by decide⟩, rfl, t9_doc⟩

/-- C9 (amended): the components list is not in source statement order
but in pass order — all node statements in line order, then all draw
statements in document order, then all path statements in document
order — and within that emitted order the converter is
order-preserving: the i-th component of a successful conversion derives
from the i-th emitted token block, and the component count equals the
block count. -/
theorem c9_component_order :
    (∀ (blocks : List Block) (comps : List JVal) (i : Nat) (b : Block)
      (c : JVal),
      convertBlocks blocks = .ok comps →
      blocks.get? i = some b → comps.get? i = some c →
      convert_tokens_to_json b = .ok c) ∧
    (∀ (blocks : List Block) (comps : List JVal),
      convertBlocks blocks = .ok comps → comps.length = blocks.length) ∧
    (∀ (content : String) (nodeBlocks drawBlocks pathBlocks : List Block),
      nodePass (splitLines (remove_comments content.data)) =
        .ok nodeBlocks →
      blocksOfStmts (findCmdStmtsAux ("\\draw".data)
        ((remove_comments content.data).length + 1)
        (remove_comments content.data)) = .ok drawBlocks →
      blocksOfStmts (findCmdStmtsAux ("\\path".data)
        ((remove_comments content.data).length + 1)
        (remove_comments content.data)) = .ok pathBlocks →
      nodeBlocks ++ drawBlocks ++ pathBlocks ≠ [] →
      tokenize_all_draw_contents content =
        .ok (some (nodeBlocks ++ drawBlocks ++ pathBlocks))) :=
  ⟨convertBlocks_get, convertBlocks_length,
   fun content nb db pb h1 h2 h3 hne =>
     tokenize_emission_order content nb db pb h1 h2 h3 hne⟩

theorem c9_component_order_witness :
    (convertBlocks [some c9NodeTokens, some c9WireTokens] =
        .ok [c9NodeComp, c9WireComp] ∧
      convert_tokens_to_json (some c9NodeTokens) = .ok c9NodeComp) ∧
    tokenize_all_draw_contents c9Content =
      .ok (some ([some c9NodeTokens] ++ [some c9WireTokens] ++ [])) := by
  refine ⟨⟨t9_blocks, ?_⟩, ?_⟩
  · exact c9_component_order.1 [some c9NodeTokens, some c9WireTokens]
      [c9NodeComp, c9WireComp] 0 (some c9NodeTokens) c9NodeComp t9_blocks
      rfl rfl
  · exact c9_component_order.2.2 c9Content [some c9NodeTokens]
      [some c9WireTokens] [] rfl rfl rfl (by simp)
